import Mathlib

/-!
# sigtheif-go: certificate-table location and signature transplant

A shallow embedding of `src/main.go`.

* A file is its byte sequence (`Bytes`).  In the file system (`FS`) every path
  names a file, existing or not, and several paths may name the same file
  (`x` and `./x`, a hard link, a symbolic link); the content belongs to the
  file, not to the path.  An open file is the file its path named:
  `os.OpenFile` with `O_TRUNC` on a path that names the target empties the
  file that `io.Copy` then reads.
* `os.Open` fails on a file that does not exist; `os.OpenFile` (line 73) and
  `io.Copy` (line 79) fail when the run's `Faults` say so.  `Seek` and the two
  `binary.Write` calls, whose results the program drops, are taken to
  succeed.
* `debug/pe` belongs to the Go standard library, not to this repository.
  `GetCertTableInfo` therefore takes `pe.NewFile` as a parameter `NewFile`
  that either fails or yields the `FileHeader` stored in `peFile`; the
  general theorems hold for every such function.  The concrete examples run
  with the stand-in `headerNewFile`, which makes the checks of the library
  on the headers.
* All integers are natural numbers.  The only narrowing conversions of the
  program, `uint32(fileSize)` and `uint32(len(cert))`, are written `% 2 ^ 32`.
* The messages printed with `fmt.Printf` are not part of the state.
-/

namespace Sigthief

/-! ## Bytes and little-endian integers -/

abbrev Bytes := List UInt8

/-- Value of a little-endian byte string, as read by `binary.LittleEndian`. -/
def leNat (bs : Bytes) : Nat :=
  bs.foldr (fun b acc => b.toNat + 256 * acc) 0

/-- The four bytes `binary.Write` emits for a `uint32` in little-endian order. -/
def putUint32 (v : Nat) : Bytes :=
  [UInt8.ofNat v, UInt8.ofNat (v / 256), UInt8.ofNat (v / 65536), UInt8.ofNat (v / 16777216)]

/-- The slice `file[off : off+n]`, cut short at the end of the file. -/
def slice (file : Bytes) (off n : Nat) : Bytes :=
  (file.drop off).take n

/-- Little-endian `uint32` stored in `file` at offset `off`. -/
def uint32At (file : Bytes) (off : Nat) : Nat :=
  leNat (slice file off 4)

/-- Little-endian `uint16` stored in `file` at offset `off`. -/
def uint16At (file : Bytes) (off : Nat) : Nat :=
  leNat (slice file off 2)

/-! ## Errors -/

inductive Error where
  /-- `os.Open` on a path that names no file. -/
  | notExist (path : String)
  /-- `io.EOF`: nothing left to read. -/
  | eof
  /-- `io.ErrUnexpectedEOF`: the input ended inside a fixed-size record. -/
  | unexpectedEOF
  /-- Any error reported by the library function `pe.NewFile`. -/
  | peNewFile (code : Nat)
  /-- Any other error reported by the operating system. -/
  | os (code : Nat)
  deriving DecidableEq, Repr

deriving instance DecidableEq for Except

/-! ## Reading primitives -/

/-- `file.ReadAt(buf, off)` into a zeroed buffer of `n` bytes, the error being
ignored: the bytes that exist are stored, the rest of the buffer stays zero. -/
def ReadAt (file : Bytes) (n off : Nat) : Bytes :=
  slice file off n ++ List.replicate (n - (slice file off n).length) 0

/-- `io.ReadFull` of `n` bytes from a section reader over the whole file that
stands at `pos`: the bytes and the new position, or the error and the
position reached. -/
def readFull (file : Bytes) (pos n : Nat) : Except Error Bytes × Nat :=
  if pos + n ≤ file.length then (.ok (slice file pos n), pos + n)
  else if pos < file.length then (.error .unexpectedEOF, file.length)
  else (.error .eof, pos)

/-- One unsigned little-endian field of `n` bytes taken off the front of the
input, with the rest of the input. -/
def readU (n : Nat) (s : Bytes) : Nat × Bytes :=
  (leNat (s.take n), s.drop n)

/-! ## The `debug/pe` records decoded by `binary.Read` -/

structure FileHeader where
  Machine : Nat
  NumberOfSections : Nat
  TimeDateStamp : Nat
  PointerToSymbolTable : Nat
  NumberOfSymbols : Nat
  SizeOfOptionalHeader : Nat
  Characteristics : Nat
  deriving DecidableEq, Repr

structure DataDirectory where
  VirtualAddress : Nat
  Size : Nat
  deriving DecidableEq, Repr

structure OptionalHeader32 where
  Magic : Nat
  MajorLinkerVersion : Nat
  MinorLinkerVersion : Nat
  SizeOfCode : Nat
  SizeOfInitializedData : Nat
  SizeOfUninitializedData : Nat
  AddressOfEntryPoint : Nat
  BaseOfCode : Nat
  BaseOfData : Nat
  ImageBase : Nat
  SectionAlignment : Nat
  FileAlignment : Nat
  MajorOperatingSystemVersion : Nat
  MinorOperatingSystemVersion : Nat
  MajorImageVersion : Nat
  MinorImageVersion : Nat
  MajorSubsystemVersion : Nat
  MinorSubsystemVersion : Nat
  Win32VersionValue : Nat
  SizeOfImage : Nat
  SizeOfHeaders : Nat
  CheckSum : Nat
  Subsystem : Nat
  DllCharacteristics : Nat
  SizeOfStackReserve : Nat
  SizeOfStackCommit : Nat
  SizeOfHeapReserve : Nat
  SizeOfHeapCommit : Nat
  LoaderFlags : Nat
  NumberOfRvaAndSizes : Nat
  DataDirectory : Fin 16 → DataDirectory

structure OptionalHeader64 where
  Magic : Nat
  MajorLinkerVersion : Nat
  MinorLinkerVersion : Nat
  SizeOfCode : Nat
  SizeOfInitializedData : Nat
  SizeOfUninitializedData : Nat
  AddressOfEntryPoint : Nat
  BaseOfCode : Nat
  ImageBase : Nat
  SectionAlignment : Nat
  FileAlignment : Nat
  MajorOperatingSystemVersion : Nat
  MinorOperatingSystemVersion : Nat
  MajorImageVersion : Nat
  MinorImageVersion : Nat
  MajorSubsystemVersion : Nat
  MinorSubsystemVersion : Nat
  Win32VersionValue : Nat
  SizeOfImage : Nat
  SizeOfHeaders : Nat
  CheckSum : Nat
  Subsystem : Nat
  DllCharacteristics : Nat
  SizeOfStackReserve : Nat
  SizeOfStackCommit : Nat
  SizeOfHeapReserve : Nat
  SizeOfHeapCommit : Nat
  LoaderFlags : Nat
  NumberOfRvaAndSizes : Nat
  DataDirectory : Fin 16 → DataDirectory

/-- Decoder of `binary.Read(r, binary.LittleEndian, &peFile.FileHeader)`:
the fields in declaration order. -/
def decodeFileHeader (b : Bytes) : FileHeader :=
  let (machine, b) := readU 2 b
  let (numberOfSections, b) := readU 2 b
  let (timeDateStamp, b) := readU 4 b
  let (pointerToSymbolTable, b) := readU 4 b
  let (numberOfSymbols, b) := readU 4 b
  let (sizeOfOptionalHeader, b) := readU 2 b
  let (characteristics, _) := readU 2 b
  { Machine := machine, NumberOfSections := numberOfSections, TimeDateStamp := timeDateStamp,
    PointerToSymbolTable := pointerToSymbolTable, NumberOfSymbols := numberOfSymbols,
    SizeOfOptionalHeader := sizeOfOptionalHeader, Characteristics := characteristics }

/-- The sixteen `(VirtualAddress, Size)` pairs of a `DataDirectory` array, each
pair taking eight bytes. -/
def decodeDataDirectory (b : Bytes) (i : Fin 16) : DataDirectory :=
  { VirtualAddress := (readU 4 (b.drop (8 * i.val))).1,
    Size := (readU 4 (readU 4 (b.drop (8 * i.val))).2).1 }

/-- Decoder of `binary.Read(headerSR, binary.LittleEndian, &oh32)`. -/
def decodeOptionalHeader32 (b : Bytes) : OptionalHeader32 :=
  let (magic, b) := readU 2 b
  let (majorLinkerVersion, b) := readU 1 b
  let (minorLinkerVersion, b) := readU 1 b
  let (sizeOfCode, b) := readU 4 b
  let (sizeOfInitializedData, b) := readU 4 b
  let (sizeOfUninitializedData, b) := readU 4 b
  let (addressOfEntryPoint, b) := readU 4 b
  let (baseOfCode, b) := readU 4 b
  let (baseOfData, b) := readU 4 b
  let (imageBase, b) := readU 4 b
  let (sectionAlignment, b) := readU 4 b
  let (fileAlignment, b) := readU 4 b
  let (majorOperatingSystemVersion, b) := readU 2 b
  let (minorOperatingSystemVersion, b) := readU 2 b
  let (majorImageVersion, b) := readU 2 b
  let (minorImageVersion, b) := readU 2 b
  let (majorSubsystemVersion, b) := readU 2 b
  let (minorSubsystemVersion, b) := readU 2 b
  let (win32VersionValue, b) := readU 4 b
  let (sizeOfImage, b) := readU 4 b
  let (sizeOfHeaders, b) := readU 4 b
  let (checkSum, b) := readU 4 b
  let (subsystem, b) := readU 2 b
  let (dllCharacteristics, b) := readU 2 b
  let (sizeOfStackReserve, b) := readU 4 b
  let (sizeOfStackCommit, b) := readU 4 b
  let (sizeOfHeapReserve, b) := readU 4 b
  let (sizeOfHeapCommit, b) := readU 4 b
  let (loaderFlags, b) := readU 4 b
  let (numberOfRvaAndSizes, b) := readU 4 b
  { Magic := magic, MajorLinkerVersion := majorLinkerVersion,
    MinorLinkerVersion := minorLinkerVersion, SizeOfCode := sizeOfCode,
    SizeOfInitializedData := sizeOfInitializedData,
    SizeOfUninitializedData := sizeOfUninitializedData,
    AddressOfEntryPoint := addressOfEntryPoint, BaseOfCode := baseOfCode,
    BaseOfData := baseOfData, ImageBase := imageBase, SectionAlignment := sectionAlignment,
    FileAlignment := fileAlignment,
    MajorOperatingSystemVersion := majorOperatingSystemVersion,
    MinorOperatingSystemVersion := minorOperatingSystemVersion,
    MajorImageVersion := majorImageVersion, MinorImageVersion := minorImageVersion,
    MajorSubsystemVersion := majorSubsystemVersion,
    MinorSubsystemVersion := minorSubsystemVersion, Win32VersionValue := win32VersionValue,
    SizeOfImage := sizeOfImage, SizeOfHeaders := sizeOfHeaders, CheckSum := checkSum,
    Subsystem := subsystem, DllCharacteristics := dllCharacteristics,
    SizeOfStackReserve := sizeOfStackReserve, SizeOfStackCommit := sizeOfStackCommit,
    SizeOfHeapReserve := sizeOfHeapReserve, SizeOfHeapCommit := sizeOfHeapCommit,
    LoaderFlags := loaderFlags, NumberOfRvaAndSizes := numberOfRvaAndSizes,
    DataDirectory := decodeDataDirectory b }

/-- Decoder of `binary.Read(headerSR, binary.LittleEndian, &oh64)`. -/
def decodeOptionalHeader64 (b : Bytes) : OptionalHeader64 :=
  let (magic, b) := readU 2 b
  let (majorLinkerVersion, b) := readU 1 b
  let (minorLinkerVersion, b) := readU 1 b
  let (sizeOfCode, b) := readU 4 b
  let (sizeOfInitializedData, b) := readU 4 b
  let (sizeOfUninitializedData, b) := readU 4 b
  let (addressOfEntryPoint, b) := readU 4 b
  let (baseOfCode, b) := readU 4 b
  let (imageBase, b) := readU 8 b
  let (sectionAlignment, b) := readU 4 b
  let (fileAlignment, b) := readU 4 b
  let (majorOperatingSystemVersion, b) := readU 2 b
  let (minorOperatingSystemVersion, b) := readU 2 b
  let (majorImageVersion, b) := readU 2 b
  let (minorImageVersion, b) := readU 2 b
  let (majorSubsystemVersion, b) := readU 2 b
  let (minorSubsystemVersion, b) := readU 2 b
  let (win32VersionValue, b) := readU 4 b
  let (sizeOfImage, b) := readU 4 b
  let (sizeOfHeaders, b) := readU 4 b
  let (checkSum, b) := readU 4 b
  let (subsystem, b) := readU 2 b
  let (dllCharacteristics, b) := readU 2 b
  let (sizeOfStackReserve, b) := readU 8 b
  let (sizeOfStackCommit, b) := readU 8 b
  let (sizeOfHeapReserve, b) := readU 8 b
  let (sizeOfHeapCommit, b) := readU 8 b
  let (loaderFlags, b) := readU 4 b
  let (numberOfRvaAndSizes, b) := readU 4 b
  { Magic := magic, MajorLinkerVersion := majorLinkerVersion,
    MinorLinkerVersion := minorLinkerVersion, SizeOfCode := sizeOfCode,
    SizeOfInitializedData := sizeOfInitializedData,
    SizeOfUninitializedData := sizeOfUninitializedData,
    AddressOfEntryPoint := addressOfEntryPoint, BaseOfCode := baseOfCode,
    ImageBase := imageBase, SectionAlignment := sectionAlignment,
    FileAlignment := fileAlignment,
    MajorOperatingSystemVersion := majorOperatingSystemVersion,
    MinorOperatingSystemVersion := minorOperatingSystemVersion,
    MajorImageVersion := majorImageVersion, MinorImageVersion := minorImageVersion,
    MajorSubsystemVersion := majorSubsystemVersion,
    MinorSubsystemVersion := minorSubsystemVersion, Win32VersionValue := win32VersionValue,
    SizeOfImage := sizeOfImage, SizeOfHeaders := sizeOfHeaders, CheckSum := checkSum,
    Subsystem := subsystem, DllCharacteristics := dllCharacteristics,
    SizeOfStackReserve := sizeOfStackReserve, SizeOfStackCommit := sizeOfStackCommit,
    SizeOfHeapReserve := sizeOfHeapReserve, SizeOfHeapCommit := sizeOfHeapCommit,
    LoaderFlags := loaderFlags, NumberOfRvaAndSizes := numberOfRvaAndSizes,
    DataDirectory := decodeDataDirectory b }

/-- Byte size of `FileHeader`: `binary.Size(peFile.FileHeader)`. -/
def sizeofFileHeader : Nat := 2 + 2 + 4 + 4 + 4 + 2 + 2

/-- Result of `binary.Size(pe.OptionalHeader32{})`: thirty scalar fields
(96 bytes) and sixteen directory entries of eight bytes. -/
def sizeofOptionalHeader32 : Nat := 96 + 16 * 8

/-- Result of `binary.Size(pe.OptionalHeader64{})`: twenty-nine scalar fields
(112 bytes) and sixteen directory entries of eight bytes. -/
def sizeofOptionalHeader64 : Nat := 112 + 16 * 8

/-! ## `GetCertTableInfo` -/

def CERTIFICATE_TABLE : Fin 16 := 4

/-- Lines 108-121: the offset of the File Header.  When the first
two bytes of `dosheader` are `M`, `Z` it is four past the `uint32` stored at
`0x3c`, otherwise zero.  The four bytes read into `sign` only decide whether
a message is printed. -/
def peBase (file : Bytes) : Nat :=
  let dosheader := ReadAt file 96 0
  if dosheader.getD 0 0 = 0x4D ∧ dosheader.getD 1 0 = 0x5A then
    let signoff := leNat ((dosheader.drop 0x3c).take 4)
    signoff + 4
  else
    0

/-- Line 126: `binary.Read(headerSR, ..., &peFile.FileHeader)` with its error
dropped.  A full read replaces the header that `pe.NewFile` stored; a short
read leaves it in place.  The second component is the reader position. -/
def readFileHeader (peFile : FileHeader) (file : Bytes) (base : Nat) : FileHeader × Nat :=
  match readFull file base sizeofFileHeader with
  | (.ok b, pos) => (decodeFileHeader b, pos)
  | (.error _, pos) => (peFile, pos)

/-- `GetCertTableInfo`: the Certificate Table entry location, and the offset
and length stored in that entry. -/
def GetCertTableInfo (NewFile : Bytes → Except Error FileHeader) (file : Bytes) :
    Except Error (Nat × Nat × Nat) :=
  match NewFile file with
  | .error err => .error err
  | .ok peFile =>
    let base := peBase file
    let (fileHeader, pos) := readFileHeader peFile file base
    if fileHeader.SizeOfOptionalHeader = sizeofOptionalHeader32 then
      match readFull file pos sizeofOptionalHeader32 with
      | (.error err, _) => .error err
      | (.ok b, _) =>
        -- a Magic other than 0x10b is only printed (lines 144-146)
        let oh32 := decodeOptionalHeader32 b
        .ok (base + 20 + 128,
             (oh32.DataDirectory CERTIFICATE_TABLE).VirtualAddress,
             (oh32.DataDirectory CERTIFICATE_TABLE).Size)
    else if fileHeader.SizeOfOptionalHeader = sizeofOptionalHeader64 then
      match readFull file pos sizeofOptionalHeader64 with
      | (.error err, _) => .error err
      | (.ok b, _) =>
        -- a Magic other than 0x20b is only printed (lines 157-159)
        let oh64 := decodeOptionalHeader64 b
        .ok (base + 20 + 144,
             (oh64.DataDirectory CERTIFICATE_TABLE).VirtualAddress,
             (oh64.DataDirectory CERTIFICATE_TABLE).Size)
    else
      -- the switch has no default case: the zero values are returned
      .ok (0, 0, 0)

/-! ## `SigRip` -/

/-- Identity of a file, as opposed to the paths that name it. -/
abbrev FileId := Nat

/-- The file system.  `resolve` gives the file that a path names: two paths
have the same value exactly when they name the same file.  `content` gives
the bytes of a file, `none` for a file that does not exist. -/
structure FS where
  resolve : String → FileId
  content : FileId → Option Bytes

/-- The bytes of the file that `path` names, `none` when there is no such
file: what `os.Open` followed by reads sees. -/
def FS.read (fs : FS) (path : String) : Option Bytes :=
  fs.content (fs.resolve path)

/-- The file system after the file that `path` names has been given the
content `bytes`; every path that names this file sees the new content. -/
def FS.write (fs : FS) (path : String) (bytes : Bytes) : FS :=
  { resolve := fs.resolve
    content := fun i => if i = fs.resolve path then some bytes else fs.content i }

/-- The failures of the operating system during one run of `SigRip`:
`openOutput` is the error of `os.OpenFile` at line 73, `copy` the number of
bytes written and the error of `io.Copy` at line 79; `none` means that the
call succeeds. -/
structure Faults where
  openOutput : Option Error
  copy : Option (Nat × Error)

/-- A run without operating-system failures. -/
def noFaults : Faults :=
  { openOutput := none, copy := none }

/-- Lines 56-59: a zeroed buffer of `certTableSize` bytes filled by
`binary.Read` from the section `[certTableOffset, certTableOffset+certTableSize)`
of the signed file.  The error of a short read is dropped and the buffer
then keeps its zeros. -/
def readCert (signedFile : Bytes) (certTableOffset certTableSize : Nat) : Bytes :=
  if certTableOffset + certTableSize ≤ signedFile.length then
    slice signedFile certTableOffset certTableSize
  else
    List.replicate certTableSize 0

/-- Effect of `Seek(off, 0)` followed by a write of `data`: the bytes at
`[off, off + len data)` are replaced, the file being extended (with zeros in
a gap) when it is too short. -/
def writeAt (content : Bytes) (off : Nat) (data : Bytes) : Bytes :=
  content.take off ++ List.replicate (off - content.length) 0 ++ data
    ++ content.drop (off + data.length)

/-- `SigRip`: the file system after the call, and the returned error
(`none` is Go's `nil`). -/
def SigRip (NewFile : Bytes → Except Error FileHeader) (io : Faults) (fs : FS)
    (signedFilePath targetFilePath outputFilePath : String) : FS × Option Error :=
  match fs.read signedFilePath with
  | none => (fs, some (.notExist signedFilePath))
  | some signedFile =>
    match GetCertTableInfo NewFile signedFile with
    | .error err => (fs, some err)
    | .ok (_, certTableOffset, certTableSize) =>
      if certTableOffset = 0 ∨ certTableSize = 0 then
        -- line 52 returns `err`, which is nil after the check of line 46
        (fs, none)
      else
        let cert := readCert signedFile certTableOffset certTableSize
        match fs.read targetFilePath with
        | none => (fs, some (.notExist targetFilePath))
        | some targetFile =>
          match GetCertTableInfo NewFile targetFile with
          | .error err => (fs, some err)
          | .ok (certTableLoc, _, _) =>
            match io.openOutput with
            | some err => (fs, some err)
            | none =>
              -- os.OpenFile with O_CREATE|O_TRUNC: the output file exists and is empty
              let fs1 := fs.write outputFilePath []
              -- io.Copy reads the target file as it is now
              let copied := (fs1.read targetFilePath).getD []
              match io.copy with
              | some (written, err) => (fs1.write outputFilePath (copied.take written), some err)
              | none =>
                let fileSize := copied.length
                let certTableInfo :=
                  putUint32 (fileSize % 2 ^ 32) ++ putUint32 (cert.length % 2 ^ 32)
                let patched := writeAt copied certTableLoc certTableInfo
                (fs1.write outputFilePath (patched ++ cert), none)

/-! ## The claims' vocabulary, stated on the raw bytes of an image -/

/-- Offset of the File Header in the words of the specification: four past
the little-endian `uint32` at `0x3C` for an image that starts with `M`, `Z`,
and zero for every other image. -/
def headerBase (file : Bytes) : Nat :=
  if file.take 2 = [0x4D, 0x5A] then uint32At file 0x3C + 4 else 0

/-- The `SizeOfOptionalHeader` field of the image's File Header (bytes 16 and
17 of the twenty at `headerBase`), for an image long enough to hold that
header. -/
def imageSizeOfOptionalHeader (file : Bytes) : Option Nat :=
  if headerBase file + 20 ≤ file.length then some (uint16At file (headerBase file + 16))
  else none

/-- The output layout in the words of the specification: the target with the
eight bytes at `entryOffset` replaced by the little-endian pair
`(fileSize, certSize)`, followed by the certificate. -/
def transplanted (target : Bytes) (entryOffset : Nat) (cert : Bytes) : Bytes :=
  target.take entryOffset
    ++ (putUint32 (target.length % 2 ^ 32) ++ putUint32 (cert.length % 2 ^ 32))
    ++ target.drop (entryOffset + 8) ++ cert

/-! ## Concrete images for the examples -/

/-- The two bytes `binary.Write` emits for a `uint16`. -/
def putUint16 (v : Nat) : Bytes :=
  [UInt8.ofNat v, UInt8.ofNat (v / 256)]

/-- A stand-in for the library function `pe.NewFile`, used only to run the
concrete examples.  It is deliberately strict: it accepts an image only when
the 96-byte DOS header can be read, the `PE\0\0` signature is in place after
an `MZ` stub, the File Header can be read and names a known machine with no
symbol table and no sections, and the Optional Header is absent or is a
complete 32-bit or 64-bit one with its proper magic and sixteen directories. -/
def headerNewFile (file : Bytes) : Except Error FileHeader :=
  if file.length < 96 then .error (.peNewFile 0)
  else if file.take 2 = [0x4D, 0x5A] ∧ slice file (uint32At file 0x3C) 4 ≠ [0x50, 0x45, 0, 0] then
    .error (.peNewFile 1)
  else
    let base := headerBase file
    if file.length < base + 20 then .error (.peNewFile 2)
    else
      let fh := decodeFileHeader (slice file base 20)
      if fh.Machine ≠ 0 ∧ fh.Machine ≠ 0x14c ∧ fh.Machine ≠ 0x8664 then .error (.peNewFile 3)
      else if fh.PointerToSymbolTable ≠ 0 ∨ fh.NumberOfSections ≠ 0 then .error (.peNewFile 4)
      else if fh.SizeOfOptionalHeader = 0 then .ok fh
      else if fh.SizeOfOptionalHeader = 224 ∧ base + 244 ≤ file.length
          ∧ uint16At file (base + 20) = 0x10b ∧ uint32At file (base + 20 + 92) = 16 then .ok fh
      else if fh.SizeOfOptionalHeader = 240 ∧ base + 260 ≤ file.length
          ∧ uint16At file (base + 20) = 0x20b ∧ uint32At file (base + 20 + 108) = 16 then .ok fh
      else .error (.peNewFile 5)

/-- A 64-byte DOS stub: `MZ`, and at `0x3C` the offset 64 of the signature. -/
def dosStub : Bytes :=
  [0x4D, 0x5A] ++ List.replicate 58 0 ++ putUint32 64

/-- A File Header for `machine` with no sections and no symbols. -/
def fileHeaderBytes (machine sizeOfOptionalHeader : Nat) : Bytes :=
  putUint16 machine ++ putUint16 0 ++ putUint32 0 ++ putUint32 0 ++ putUint32 0
    ++ putUint16 sizeOfOptionalHeader ++ putUint16 0x22

/-- The headers of a 64-bit image (328 bytes) whose Certificate Table entry,
at offset 232, holds `(va, size)`. -/
def headers64 (va size : Nat) : Bytes :=
  dosStub ++ [0x50, 0x45, 0, 0] ++ fileHeaderBytes 0x8664 240
    ++ (putUint16 0x20b ++ List.replicate 106 0 ++ putUint32 16 ++ List.replicate 32 0
        ++ putUint32 va ++ putUint32 size ++ List.replicate 88 0)

/-- The headers of a 32-bit image (312 bytes) whose Certificate Table entry,
at offset 216, holds `(va, size)`. -/
def headers32 (va size : Nat) : Bytes :=
  dosStub ++ [0x50, 0x45, 0, 0] ++ fileHeaderBytes 0x14c 224
    ++ (putUint16 0x10b ++ List.replicate 90 0 ++ putUint32 16 ++ List.replicate 32 0
        ++ putUint32 va ++ putUint32 size ++ List.replicate 88 0)

/-- A 96-byte COFF object header (no `MZ` stub, no Optional Header). -/
def objectImage : Bytes :=
  fileHeaderBytes 0x8664 0 ++ List.replicate 76 0

/-- Scenario image `A`: a signed 64-bit image whose entry `(0x5000, 3)` points
at the certificate `AA BB CC` stored at the end of the file. -/
def imageA : Bytes :=
  headers64 0x5000 3 ++ List.replicate (0x5000 - 328) 0 ++ [0xAA, 0xBB, 0xCC]

/-- Scenario image `B`: an unsigned 64-bit image of 4096 bytes. -/
def imageB : Bytes :=
  headers64 0 0 ++ List.replicate (4096 - 328) 0

/-- A signed 32-bit image of 315 bytes: entry `(312, 3)`, certificate `11 22 33`. -/
def signed32 : Bytes :=
  headers32 312 3 ++ [0x11, 0x22, 0x33]

/-- A signed 64-bit image of 331 bytes: entry `(328, 3)`, certificate `AA BB CC`. -/
def signed64 : Bytes :=
  headers64 328 3 ++ [0xAA, 0xBB, 0xCC]

/-- A 64-bit image whose entry `(328, 3)` points past the end of its 329 bytes. -/
def truncated64 : Bytes :=
  headers64 328 3 ++ [0xAA]

/-- A signed 32-bit image without a DOS stub (247 bytes): the File Header is
at offset 0, the entry `(244, 3)` at 148, the certificate `11 22 33` at 244. -/
def headerless32 : Bytes :=
  fileHeaderBytes 0x14c 224
    ++ (putUint16 0x10b ++ List.replicate 90 0 ++ putUint32 16 ++ List.replicate 32 0
        ++ putUint32 244 ++ putUint32 3 ++ List.replicate 88 0)
    ++ [0x11, 0x22, 0x33]

/-- The image with the two bytes of the Optional Header `Magic` field, at
`headerBase + 20`, replaced by the little-endian encoding of `magic`. -/
def withMagic (file : Bytes) (magic : Nat) : Bytes :=
  file.take (headerBase file + 20) ++ putUint16 magic ++ file.drop (headerBase file + 22)

/-- The signed 32-bit image with the `Magic` of its Optional Header set to 0. -/
def badMagic32 : Bytes :=
  withMagic signed32 0

/-- The signed 64-bit image with `XE\0\0` in place of the signature `PE\0\0`. -/
def badSignature64 : Bytes :=
  signed64.take 64 ++ [0x58, 0x45, 0, 0] ++ signed64.drop 68

/-- The signed 32-bit image with its Certificate Table entry zeroed; the block
`11 22 33` is still stored at offset 312. -/
def twin32 : Bytes :=
  headers32 0 0 ++ [0x11, 0x22, 0x33]

/-- The files named by the paths of the examples.  `./unsigned32.exe`,
`./signed32.exe` and `./object.o` name the same files as the paths without
the leading `./`. -/
def exampleNames (p : String) : FileId :=
  if p = "A.exe" then 1
  else if p = "B.exe" then 2
  else if p = "signed32.exe" ∨ p = "./signed32.exe" then 3
  else if p = "signed64.exe" then 4
  else if p = "truncated64.exe" then 5
  else if p = "unsigned64.exe" then 6
  else if p = "unsigned32.exe" ∨ p = "./unsigned32.exe" then 7
  else if p = "object.o" ∨ p = "./object.o" then 8
  else if p = "short.bin" then 9
  else if p = "old.bin" then 10
  else if p = "out.exe" then 11
  else if p = "self32.exe" then 12
  else if p = "badmagic32.exe" then 13
  else if p = "badsignature64.exe" then 14
  else 0

/-- A file system holding the example images; `out.exe` and `self32.exe` name
files that do not exist. -/
def exampleFS : FS :=
  { resolve := exampleNames
    content := fun i =>
      if i = 1 then some imageA
      else if i = 2 then some imageB
      else if i = 3 then some signed32
      else if i = 4 then some signed64
      else if i = 5 then some truncated64
      else if i = 6 then some (headers64 0 0)
      else if i = 7 then some (headers32 0 0)
      else if i = 8 then some objectImage
      else if i = 9 then some [0x4D, 0x5A, 0x90, 0x00]
      else if i = 10 then some [1, 2, 3]
      else if i = 13 then some badMagic32
      else if i = 14 then some badSignature64
      else none }

/-- The example file system with `signed32.exe` replaced by `twin32`. -/
def twinFS : FS :=
  exampleFS.write "signed32.exe" twin32

/-- The example file system with one more file, a 32-bit image whose entry
`(216, 8)` names the entry itself as the certificate block. -/
def selfFS : FS :=
  exampleFS.write "self32.exe" (headers32 216 8)

/-! ## Byte-level lemmas -/

theorem toNat_ofNat (n : Nat) : (UInt8.ofNat n).toNat = n % 256 := rfl

theorem leNat_putUint32 (v : Nat) : leNat (putUint32 v) = v % 2 ^ 32 := by
  simp only [putUint32, leNat, List.foldr, toNat_ofNat]
  omega

theorem putUint32_length (v : Nat) : (putUint32 v).length = 4 := rfl

theorem leNat_replicate_zero (k : Nat) : leNat (List.replicate k 0) = 0 := by
  induction k with
  | zero => rfl
  | succ k ih =>
    simp only [List.replicate_succ, leNat, List.foldr_cons] at ih ⊢
    simp [ih]

theorem leNat_take_append_zeros (l : Bytes) (k n : Nat) :
    leNat ((l ++ List.replicate k 0).take n) = leNat (l.take n) := by
  induction l generalizing n with
  | nil =>
    simp only [List.nil_append, List.take_nil, List.take_replicate]
    rw [leNat_replicate_zero]; rfl
  | cons a l ih =>
    cases n with
    | zero => rfl
    | succ n =>
      have h := ih n
      simp only [leNat, List.cons_append, List.take_succ_cons, List.foldr_cons] at h ⊢
      rw [h]

theorem slice_length {file : Bytes} {off n : Nat} (h : off + n ≤ file.length) :
    (slice file off n).length = n := by
  simp only [slice, List.length_take, List.length_drop]
  omega

theorem slice_slice (file : Bytes) (off n p m : Nat) (h : p + m ≤ n) :
    slice (slice file off n) p m = slice file (off + p) m := by
  simp only [slice, List.drop_take, List.take_take, List.drop_drop]
  congr 1
  omega

theorem decodeOptionalHeader32_cert (b : Bytes) :
    (decodeOptionalHeader32 b).DataDirectory CERTIFICATE_TABLE
      = ⟨leNat (slice b 128 4), leNat (slice b 132 4)⟩ := by
  simp [decodeOptionalHeader32, decodeDataDirectory, readU, CERTIFICATE_TABLE, slice,
    List.drop_drop]
  exact ⟨rfl, rfl⟩

theorem decodeOptionalHeader64_cert (b : Bytes) :
    (decodeOptionalHeader64 b).DataDirectory CERTIFICATE_TABLE
      = ⟨leNat (slice b 144 4), leNat (slice b 148 4)⟩ := by
  simp [decodeOptionalHeader64, decodeDataDirectory, readU, CERTIFICATE_TABLE, slice,
    List.drop_drop]
  exact ⟨rfl, rfl⟩

theorem decodeFileHeader_size (b : Bytes) :
    (decodeFileHeader b).SizeOfOptionalHeader = leNat (slice b 16 2) := by
  simp [decodeFileHeader, readU, slice, List.drop_drop]

theorem getD_readAt_zero (file : Bytes) (i : Nat) (h : i < 96) :
    (ReadAt file 96 0).getD i 0 = file.getD i 0 := by
  simp only [ReadAt, slice, List.drop_zero, List.getD_eq_getElem?_getD, List.getElem?_append,
    List.length_take]
  split
  · rw [List.getElem?_take]; simp [h]
  · rename_i hlt
    have : file.length ≤ i := by omega
    rw [List.getElem?_eq_none this]
    cases hr : (List.replicate (96 - min 96 file.length) (0 : UInt8))[i - min 96 file.length]? with
    | none => rfl
    | some v =>
      rw [List.getElem?_eq_some_iff] at hr
      obtain ⟨_, hv⟩ := hr
      simp at hv
      simp [hv]

theorem starts_MZ_iff (file : Bytes) :
    (file.getD 0 0 = 0x4D ∧ file.getD 1 0 = 0x5A) ↔ file.take 2 = [0x4D, 0x5A] := by
  rcases file with _ | ⟨a, _ | ⟨b, rest⟩⟩ <;> simp

theorem peBase_eq_headerBase (file : Bytes) : peBase file = headerBase file := by
  unfold peBase headerBase
  simp only [getD_readAt_zero file 0 (by decide), getD_readAt_zero file 1 (by decide),
    starts_MZ_iff]
  have key : leNat ((ReadAt file 96 0).drop 0x3c |>.take 4) = uint32At file 0x3C := by
    simp only [ReadAt, slice, List.drop_zero, uint32At, List.drop_append_eq_append_drop,
      List.drop_replicate, leNat_take_append_zeros, List.drop_take, List.take_take]
    rfl
  simp only [key]
theorem readFileHeader_of_le (peFile : FileHeader) (file : Bytes) (base : Nat)
    (h : base + 20 ≤ file.length) :
    readFileHeader peFile file base = (decodeFileHeader (slice file base 20), base + 20) := by
  simp [readFileHeader, readFull, sizeofFileHeader, h]

theorem readFileHeader_of_not_le (peFile : FileHeader) (file : Bytes) (base : Nat)
    (h : ¬ base + 20 ≤ file.length) :
    (readFileHeader peFile file base).1 = peFile
      ∧ file.length ≤ (readFileHeader peFile file base).2 := by
  by_cases h2 : base < file.length
  · simp [readFileHeader, readFull, sizeofFileHeader, h, h2]
  · simp [readFileHeader, readFull, sizeofFileHeader, h, h2]
    omega

theorem readFull_of_le (file : Bytes) (pos n : Nat) (h : pos + n ≤ file.length) :
    readFull file pos n = (.ok (slice file pos n), pos + n) := by
  simp [readFull, h]

theorem readFull_short (file : Bytes) (pos n : Nat) (h : ¬ pos + n ≤ file.length)
    (h2 : pos < file.length) :
    readFull file pos n = (.error .unexpectedEOF, file.length) := by
  simp [readFull, h, h2]

theorem readFull_eof (file : Bytes) (pos n : Nat) (hn : 0 < n) (h : file.length ≤ pos) :
    readFull file pos n = (.error .eof, pos) := by
  have h1 : ¬ pos + n ≤ file.length := by omega
  have h2 : ¬ pos < file.length := by omega
  simp [readFull, h1, h2]

/-- Normal form of `GetCertTableInfo` on the raw bytes of the image. -/
theorem GetCertTableInfo_eq (NewFile : Bytes → Except Error FileHeader) (file : Bytes) :
    GetCertTableInfo NewFile file =
      match NewFile file with
      | .error err => .error err
      | .ok peFile =>
        if headerBase file + 20 ≤ file.length then
          if uint16At file (headerBase file + 16) = 224 then
            if headerBase file + 244 ≤ file.length then
              .ok (headerBase file + 20 + 128, uint32At file (headerBase file + 20 + 128),
                uint32At file (headerBase file + 20 + 128 + 4))
            else if headerBase file + 20 < file.length then .error .unexpectedEOF
            else .error .eof
          else if uint16At file (headerBase file + 16) = 240 then
            if headerBase file + 260 ≤ file.length then
              .ok (headerBase file + 20 + 144, uint32At file (headerBase file + 20 + 144),
                uint32At file (headerBase file + 20 + 144 + 4))
            else if headerBase file + 20 < file.length then .error .unexpectedEOF
            else .error .eof
          else .ok (0, 0, 0)
        else
          if peFile.SizeOfOptionalHeader = 224 ∨ peFile.SizeOfOptionalHeader = 240 then
            .error .eof
          else .ok (0, 0, 0) := by
  unfold GetCertTableInfo
  cases hNF : NewFile file with
  | error err => rfl
  | ok peFile =>
    simp only [peBase_eq_headerBase, sizeofOptionalHeader32, sizeofOptionalHeader64,
      Nat.reduceAdd, Nat.reduceMul]
    by_cases hlen : headerBase file + 20 ≤ file.length
    · simp only [readFileHeader_of_le _ _ _ hlen, hlen, if_true, decodeFileHeader_size,
        slice_slice file _ 20 16 2 (by decide)]
      rw [show uint16At file (headerBase file + 16) = leNat (slice file (headerBase file + 16) 2)
        from rfl]
      by_cases h32 : leNat (slice file (headerBase file + 16) 2) = 224
      · simp only [h32, if_true]
        by_cases h2 : headerBase file + 244 ≤ file.length
        · have h2' : headerBase file + 20 + 224 ≤ file.length := by omega
          simp only [readFull_of_le _ _ _ h2', h2, if_true, decodeOptionalHeader32_cert, uint32At,
            slice_slice file _ 224 128 4 (by decide), slice_slice file _ 224 132 4 (by decide)]
        · have h2' : ¬ headerBase file + 20 + 224 ≤ file.length := by omega
          by_cases h3 : headerBase file + 20 < file.length
          · simp only [readFull_short _ _ _ h2' h3, h2, h3, if_true, if_false]
          · simp only [readFull_eof _ _ 224 (by decide) (Nat.le_of_not_lt h3), h2, h3, if_false]
      · have h32' : ¬ (224 = 240) := by decide
        simp only [h32, if_false]
        by_cases h64 : leNat (slice file (headerBase file + 16) 2) = 240
        · simp only [h64, if_true]
          by_cases h2 : headerBase file + 260 ≤ file.length
          · have h2' : headerBase file + 20 + 240 ≤ file.length := by omega
            simp only [readFull_of_le _ _ _ h2', h2, if_true, decodeOptionalHeader64_cert,
              uint32At, slice_slice file _ 240 144 4 (by decide),
              slice_slice file _ 240 148 4 (by decide)]
          · have h2' : ¬ headerBase file + 20 + 240 ≤ file.length := by omega
            by_cases h3 : headerBase file + 20 < file.length
            · simp only [readFull_short _ _ _ h2' h3, h2, h3, if_true, if_false]
            · simp only [readFull_eof _ _ 240 (by decide) (Nat.le_of_not_lt h3), h2, h3,
                if_false]
        · simp only [h64, if_false]
    · obtain ⟨hfh, hpos⟩ := readFileHeader_of_not_le peFile file (headerBase file) hlen
      simp only [hlen, if_false]
      generalize readFileHeader peFile file (headerBase file) = r at hfh hpos
      obtain ⟨fh, pos⟩ := r
      simp only at hfh hpos
      subst hfh
      by_cases h32 : fh.SizeOfOptionalHeader = 224
      · simp [h32, readFull_eof _ _ 224 (by decide) hpos]
      · by_cases h64 : fh.SizeOfOptionalHeader = 240
        · simp [h64, readFull_eof _ _ 240 (by decide) hpos]
        · simp [h32, h64]

theorem leNat_lt (bs : Bytes) : leNat bs < 256 ^ bs.length := by
  induction bs with
  | nil => simp [leNat]
  | cons b bs ih =>
    have hb : b.toNat < 256 := b.val.isLt
    simp only [leNat, List.foldr_cons, List.length_cons, pow_succ] at ih ⊢
    omega

theorem uint32At_lt (file : Bytes) (off : Nat) : uint32At file off < 2 ^ 32 := by
  have h := leNat_lt (slice file off 4)
  have hl : (slice file off 4).length ≤ 4 := by
    simp only [slice, List.length_take]; omega
  calc uint32At file off < 256 ^ (slice file off 4).length := h
    _ ≤ 256 ^ 4 := Nat.pow_le_pow_right (by decide) hl
    _ = 2 ^ 32 := by norm_num

/-- A successful `GetCertTableInfo` returns either the entry of a recognised
layout, read from the image, or three zeros. -/
theorem GetCertTableInfo_ok_cases {NewFile : Bytes → Except Error FileHeader} {file : Bytes}
    {loc off sz : Nat} (h : GetCertTableInfo NewFile file = .ok (loc, off, sz)) :
    (headerBase file + 20 ≤ file.length ∧ uint16At file (headerBase file + 16) = 224
        ∧ headerBase file + 244 ≤ file.length ∧ loc = headerBase file + 20 + 128
        ∧ off = uint32At file loc ∧ sz = uint32At file (loc + 4))
    ∨ (headerBase file + 20 ≤ file.length ∧ uint16At file (headerBase file + 16) = 240
        ∧ headerBase file + 260 ≤ file.length ∧ loc = headerBase file + 20 + 144
        ∧ off = uint32At file loc ∧ sz = uint32At file (loc + 4))
    ∨ ((headerBase file + 20 ≤ file.length → uint16At file (headerBase file + 16) ≠ 224
          ∧ uint16At file (headerBase file + 16) ≠ 240)
        ∧ loc = 0 ∧ off = 0 ∧ sz = 0) := by
  rw [GetCertTableInfo_eq] at h
  cases hNF : NewFile file with
  | error err => rw [hNF] at h; cases h
  | ok peFile =>
    rw [hNF] at h
    simp only at h
    split_ifs at h with h1 h2 h3 h4 h5 h6 h7 h8
    all_goals
      injection h with h
      simp only [Prod.mk.injEq] at h
      obtain ⟨rfl, rfl, rfl⟩ := h
      first
        | exact Or.inl ⟨h1, h2, h3, rfl, rfl, rfl⟩
        | exact Or.inr (Or.inl ⟨h1, by assumption, by assumption, rfl, rfl, rfl⟩)
        | exact Or.inr (Or.inr ⟨fun _ => ⟨by assumption, by assumption⟩, rfl, rfl, rfl⟩)
        | exact Or.inr (Or.inr ⟨fun hc => absurd hc h1, rfl, rfl, rfl⟩)

theorem GetCertTableInfo_loc_bound {NewFile : Bytes → Except Error FileHeader} {file : Bytes}
    {loc off sz : Nat} (h : GetCertTableInfo NewFile file = .ok (loc, off, sz))
    (h8 : 8 ≤ file.length) : loc + 8 ≤ file.length := by
  rcases GetCertTableInfo_ok_cases h with ⟨_, _, hl, rfl, _, _⟩ | ⟨_, _, hl, rfl, _, _⟩ |
    ⟨_, rfl, _, _⟩ <;> omega

theorem GetCertTableInfo_size_lt {NewFile : Bytes → Except Error FileHeader} {file : Bytes}
    {loc off sz : Nat} (h : GetCertTableInfo NewFile file = .ok (loc, off, sz)) :
    sz < 2 ^ 32 := by
  rcases GetCertTableInfo_ok_cases h with ⟨_, _, _, _, _, rfl⟩ | ⟨_, _, _, _, _, rfl⟩ |
    ⟨_, _, _, rfl⟩
  · exact uint32At_lt _ _
  · exact uint32At_lt _ _
  · norm_num

/-! ## Lemmas on the certificate and the transplant -/

theorem readCert_length (signedFile : Bytes) (off sz : Nat) :
    (readCert signedFile off sz).length = sz := by
  unfold readCert
  split
  · rename_i h; exact slice_length h
  · simp

theorem readCert_of_le {signedFile : Bytes} {off sz : Nat} (h : off + sz ≤ signedFile.length) :
    readCert signedFile off sz = slice signedFile off sz := by
  simp [readCert, h]

theorem readCert_of_lt {signedFile : Bytes} {off sz : Nat} (h : signedFile.length < off + sz) :
    readCert signedFile off sz = List.replicate sz 0 := by
  have h' : ¬ off + sz ≤ signedFile.length := by omega
  simp [readCert, h']

theorem slice_append_left (a b : Bytes) (p n : Nat) (h : p + n ≤ a.length) :
    slice (a ++ b) p n = slice a p n := by
  have hp : p ≤ a.length := by omega
  have hn : n ≤ (a.drop p).length := by simp only [List.length_drop]; omega
  simp only [slice, List.drop_append_of_le_length hp, List.take_append_of_le_length hn]

theorem slice_append_right (a b : Bytes) (p n : Nat) (h : a.length ≤ p) :
    slice (a ++ b) p n = slice b (p - a.length) n := by
  simp only [slice, List.drop_append_eq_append_drop, List.drop_of_length_le h, List.nil_append]

theorem slice_take (l : Bytes) (k p n : Nat) (h : p + n ≤ k) :
    slice (l.take k) p n = slice l p n := by
  simp only [slice, List.drop_take, List.take_take]
  congr 1
  omega

theorem take_two_eq_slice (l : Bytes) : l.take 2 = slice l 0 2 := rfl

theorem transplanted_length (target : Bytes) (loc : Nat) (cert : Bytes)
    (h : loc + 8 ≤ target.length) :
    (transplanted target loc cert).length = target.length + cert.length := by
  simp only [transplanted, List.length_append, List.length_take, List.length_drop,
    putUint32_length]
  omega

theorem slice_transplanted_low (target : Bytes) (loc : Nat) (cert : Bytes) (p n : Nat)
    (hloc : loc ≤ target.length) (h : p + n ≤ loc) :
    slice (transplanted target loc cert) p n = slice target p n := by
  have hl : (target.take loc).length = loc := by simp [hloc]
  simp only [transplanted, List.append_assoc]
  rw [slice_append_left _ _ _ _ (by omega), slice_take _ _ _ _ h]

theorem slice_transplanted_va (target : Bytes) (loc : Nat) (cert : Bytes)
    (hloc : loc ≤ target.length) :
    slice (transplanted target loc cert) loc 4 = putUint32 (target.length % 2 ^ 32) := by
  have hl : (target.take loc).length = loc := by simp [hloc]
  simp only [transplanted, List.append_assoc]
  rw [slice_append_right _ _ _ _ (by omega), hl, Nat.sub_self,
    slice_append_left _ _ _ _ (by simp [putUint32_length])]
  rfl

theorem slice_transplanted_size (target : Bytes) (loc : Nat) (cert : Bytes)
    (hloc : loc ≤ target.length) :
    slice (transplanted target loc cert) (loc + 4) 4 = putUint32 (cert.length % 2 ^ 32) := by
  have hl : (target.take loc).length = loc := by simp [hloc]
  simp only [transplanted, List.append_assoc]
  rw [slice_append_right _ _ _ _ (by omega), hl, Nat.add_sub_cancel_left,
    slice_append_right _ _ _ _ (by simp [putUint32_length]), putUint32_length, Nat.sub_self,
    slice_append_left _ _ _ _ (by simp [putUint32_length])]
  rfl

theorem headerBase_transplanted (target : Bytes) (loc : Nat) (cert : Bytes)
    (hloc : loc ≤ target.length) (h64 : 64 ≤ loc) :
    headerBase (transplanted target loc cert) = headerBase target := by
  simp only [headerBase, take_two_eq_slice, uint32At,
    slice_transplanted_low target loc cert 0 2 hloc (by omega),
    slice_transplanted_low target loc cert 0x3C 4 hloc (by omega)]

/-- Locating the entry again in a transplanted image with a recognised layout,
once the library has accepted that image. -/
theorem GetCertTableInfo_transplanted {NewFile : Bytes → Except Error FileHeader}
    {target cert : Bytes} {loc : Nat} {peFile : FileHeader}
    (hNF : NewFile (transplanted target loc cert) = .ok peFile)
    (hcase : (uint16At target (headerBase target + 16) = 224
          ∧ headerBase target + 244 ≤ target.length ∧ loc = headerBase target + 20 + 128)
      ∨ (uint16At target (headerBase target + 16) = 240
          ∧ headerBase target + 260 ≤ target.length ∧ loc = headerBase target + 20 + 144)) :
    GetCertTableInfo NewFile (transplanted target loc cert)
      = .ok (loc, target.length % 2 ^ 32, cert.length % 2 ^ 32) := by
  have hloc8 : loc + 8 ≤ target.length := by
    rcases hcase with ⟨_, h, rfl⟩ | ⟨_, h, rfl⟩ <;> omega
  have hloc : loc ≤ target.length := by omega
  have h64 : 64 ≤ loc := by
    rcases hcase with ⟨_, _, rfl⟩ | ⟨_, _, rfl⟩ <;> omega
  have hlen := transplanted_length target loc cert hloc8
  have hbase := headerBase_transplanted target loc cert hloc h64
  have hsoh : uint16At (transplanted target loc cert) (headerBase target + 16)
      = uint16At target (headerBase target + 16) := by
    simp only [uint16At]
    rw [slice_transplanted_low target loc cert _ 2 hloc
      (by rcases hcase with ⟨_, _, rfl⟩ | ⟨_, _, rfl⟩ <;> omega)]
  have hva : uint32At (transplanted target loc cert) loc = target.length % 2 ^ 32 := by
    simp only [uint32At, slice_transplanted_va target loc cert hloc, leNat_putUint32,
      Nat.mod_mod]
  have hsize : uint32At (transplanted target loc cert) (loc + 4) = cert.length % 2 ^ 32 := by
    simp only [uint32At, slice_transplanted_size target loc cert hloc, leNat_putUint32,
      Nat.mod_mod]
  rw [GetCertTableInfo_eq, hNF]
  simp only [hbase, hsoh, hlen]
  rcases hcase with ⟨h1, h2, h3⟩ | ⟨h1, h2, h3⟩
  · have e1 : headerBase target + 20 ≤ target.length + cert.length := by omega
    have e2 : headerBase target + 244 ≤ target.length + cert.length := by omega
    simp only [e1, e2, h1, if_true, ← h3, hva, hsize]
  · have e1 : headerBase target + 20 ≤ target.length + cert.length := by omega
    have e2 : headerBase target + 260 ≤ target.length + cert.length := by omega
    have e3 : ¬ (240 = 224) := by decide
    simp only [e1, e2, h1, e3, if_true, if_false, ← h3, hva, hsize]

/-! ## Images with bytes after the headers -/

theorem headerBase_append (hdr tail : Bytes) (h : 64 ≤ hdr.length) :
    headerBase (hdr ++ tail) = headerBase hdr := by
  simp only [headerBase, take_two_eq_slice, uint32At,
    slice_append_left hdr tail 0 2 (by omega), slice_append_left hdr tail 0x3C 4 (by omega)]

/-- `GetCertTableInfo` reads nothing past the Optional Header: bytes appended
to complete headers do not change its result, as long as the library's
answer is the same. -/
theorem GetCertTableInfo_append {NewFile : Bytes → Except Error FileHeader} (hdr tail : Bytes)
    (h : headerBase hdr + 260 ≤ hdr.length) (hNF : NewFile (hdr ++ tail) = NewFile hdr) :
    GetCertTableInfo NewFile (hdr ++ tail) = GetCertTableInfo NewFile hdr := by
  have hb := headerBase_append hdr tail (by omega)
  have e1 : headerBase hdr + 20 ≤ hdr.length := by omega
  have e2 : headerBase hdr + 244 ≤ hdr.length := by omega
  have e1' : headerBase hdr + 20 ≤ hdr.length + tail.length := by omega
  have e2' : headerBase hdr + 244 ≤ hdr.length + tail.length := by omega
  have e3' : headerBase hdr + 260 ≤ hdr.length + tail.length := by omega
  rw [GetCertTableInfo_eq, GetCertTableInfo_eq, hNF]
  simp only [hb, uint16At, uint32At, List.length_append, e1, e2, e1', e2', e3', h, if_true,
    slice_append_left hdr tail (headerBase hdr + 16) 2 (by omega),
    slice_append_left hdr tail (headerBase hdr + 20 + 128) 4 (by omega),
    slice_append_left hdr tail (headerBase hdr + 20 + 128 + 4) 4 (by omega),
    slice_append_left hdr tail (headerBase hdr + 20 + 144) 4 (by omega),
    slice_append_left hdr tail (headerBase hdr + 20 + 144 + 4) 4 (by omega)]

theorem headerNewFile_append (hdr tail : Bytes) (h : headerBase hdr + 260 ≤ hdr.length) :
    headerNewFile (hdr ++ tail) = headerNewFile hdr := by
  have hb := headerBase_append hdr tail (by omega)
  have e0 : ¬ hdr.length < 96 := by omega
  have e0' : ¬ hdr.length + tail.length < 96 := by omega
  have e1 : ¬ hdr.length < headerBase hdr + 20 := by omega
  have e1' : ¬ hdr.length + tail.length < headerBase hdr + 20 := by omega
  have e2 : headerBase hdr + 244 ≤ hdr.length := by omega
  have e2' : headerBase hdr + 244 ≤ hdr.length + tail.length := by omega
  have e3' : headerBase hdr + 260 ≤ hdr.length + tail.length := by omega
  have hsig : (hdr.take 2 = [0x4D, 0x5A]
        ∧ slice (hdr ++ tail) (uint32At hdr 0x3C) 4 ≠ [0x50, 0x45, 0, 0])
      ↔ (hdr.take 2 = [0x4D, 0x5A] ∧ slice hdr (uint32At hdr 0x3C) 4 ≠ [0x50, 0x45, 0, 0]) := by
    constructor
    · rintro ⟨hmz, hs⟩
      have hbase : headerBase hdr = uint32At hdr 0x3C + 4 := by simp [headerBase, hmz]
      rw [slice_append_left _ _ _ _ (by omega)] at hs
      exact ⟨hmz, hs⟩
    · rintro ⟨hmz, hs⟩
      have hbase : headerBase hdr = uint32At hdr 0x3C + 4 := by simp [headerBase, hmz]
      rw [slice_append_left _ _ _ _ (by omega)]
      exact ⟨hmz, hs⟩
  have htake : (hdr ++ tail).take 2 = hdr.take 2 := by
    rw [take_two_eq_slice, take_two_eq_slice, slice_append_left _ _ _ _ (by omega)]
  have h3c : uint32At (hdr ++ tail) 0x3C = uint32At hdr 0x3C := by
    simp only [uint32At, slice_append_left hdr tail 0x3C 4 (by omega)]
  have hmagic : uint16At (hdr ++ tail) (headerBase hdr + 20) = uint16At hdr (headerBase hdr + 20) := by
    simp only [uint16At, slice_append_left hdr tail (headerBase hdr + 20) 2 (by omega)]
  have hn32 : uint32At (hdr ++ tail) (headerBase hdr + 20 + 92)
      = uint32At hdr (headerBase hdr + 20 + 92) := by
    simp only [uint32At, slice_append_left hdr tail (headerBase hdr + 20 + 92) 4 (by omega)]
  have hn64 : uint32At (hdr ++ tail) (headerBase hdr + 20 + 108)
      = uint32At hdr (headerBase hdr + 20 + 108) := by
    simp only [uint32At, slice_append_left hdr tail (headerBase hdr + 20 + 108) 4 (by omega)]
  unfold headerNewFile
  simp only [hb, htake, h3c, hsig, hmagic, hn32, hn64, List.length_append, e0, e0', e1, e1',
    e2, e2', e3', h, if_false, slice_append_left hdr tail (headerBase hdr) 20 (by omega)]

theorem headers64_length (va size : Nat) : (headers64 va size).length = 328 := by
  simp only [headers64, dosStub, fileHeaderBytes, putUint16, putUint32, List.length_append,
    List.length_replicate, List.length_cons, List.length_nil]

theorem GetCertTableInfo_imageA :
    GetCertTableInfo headerNewFile imageA = .ok (232, 0x5000, 3) := by
  have h : headerBase (headers64 0x5000 3) + 260 ≤ (headers64 0x5000 3).length := by decide!
  unfold imageA
  rw [List.append_assoc,
    GetCertTableInfo_append _ _ h (headerNewFile_append _ _ h)]
  decide!

theorem length_headers_append (hdr pad cert : Bytes) (n : Nat) (h : hdr.length + pad.length = n) :
    n + cert.length ≤ (hdr ++ pad ++ cert).length := by
  simp only [List.length_append]
  omega

theorem imageA_cert_inside : 0x5000 + 3 ≤ imageA.length :=
  length_headers_append (headers64 0x5000 3) (List.replicate (0x5000 - 328) 0) [0xAA, 0xBB, 0xCC]
    0x5000 (by rw [headers64_length, List.length_replicate])

theorem slice_imageA : slice imageA 0x5000 3 = [0xAA, 0xBB, 0xCC] := by
  have h1 : (headers64 0x5000 3).length ≤ 0x5000 := by
    rw [headers64_length]; decide
  have h2 : (List.replicate (0x5000 - 328) (0 : UInt8)).length ≤ 0x5000 - 328 := by
    rw [List.length_replicate]
  unfold imageA
  rw [List.append_assoc, slice_append_right _ _ _ _ h1, headers64_length,
    slice_append_right _ _ _ _ h2, List.length_replicate, Nat.sub_self]
  rfl

theorem imageB_length : imageB.length = 4096 := by decide!

theorem recognised_cases {NewFile : Bytes → Except Error FileHeader} {file : Bytes}
    {loc off sz : Nat} (h : GetCertTableInfo NewFile file = .ok (loc, off, sz))
    (hrec : imageSizeOfOptionalHeader file = some 224
      ∨ imageSizeOfOptionalHeader file = some 240) :
    (uint16At file (headerBase file + 16) = 224 ∧ headerBase file + 244 ≤ file.length
        ∧ loc = headerBase file + 20 + 128 ∧ off = uint32At file loc
        ∧ sz = uint32At file (loc + 4))
    ∨ (uint16At file (headerBase file + 16) = 240 ∧ headerBase file + 260 ≤ file.length
        ∧ loc = headerBase file + 20 + 144 ∧ off = uint32At file loc
        ∧ sz = uint32At file (loc + 4)) := by
  rcases GetCertTableInfo_ok_cases h with ⟨_, h1, h2, h3, h4, h5⟩ | ⟨_, h1, h2, h3, h4, h5⟩ |
    ⟨hno, _, _, _⟩
  · exact Or.inl ⟨h1, h2, h3, h4, h5⟩
  · exact Or.inr ⟨h1, h2, h3, h4, h5⟩
  · exfalso
    unfold imageSizeOfOptionalHeader at hrec
    split_ifs at hrec with hlen
    · obtain ⟨n1, n2⟩ := hno hlen
      rcases hrec with hr | hr
      · exact n1 (Option.some.inj hr)
      · exact n2 (Option.some.inj hr)
    · rcases hrec with hr | hr <;> cases hr

/-! ## Lemmas on `SigRip` -/

theorem FS.read_write_of_eq (fs : FS) (path p : String) (bytes : Bytes)
    (h : fs.resolve p = fs.resolve path) : (fs.write path bytes).read p = some bytes := by
  simp [FS.read, FS.write, h]

theorem FS.read_write_same (fs : FS) (path : String) (bytes : Bytes) :
    (fs.write path bytes).read path = some bytes :=
  FS.read_write_of_eq fs path path bytes rfl

theorem FS.read_write_of_ne (fs : FS) (path p : String) (bytes : Bytes)
    (h : fs.resolve p ≠ fs.resolve path) : (fs.write path bytes).read p = fs.read p := by
  simp [FS.read, FS.write, h]

theorem FS.write_write (fs : FS) (path : String) (a b : Bytes) :
    (fs.write path a).write path b = fs.write path b := by
  simp only [FS.write, FS.mk.injEq, true_and]
  funext i
  by_cases h : i = fs.resolve path <;> simp [h]

theorem writeAt_of_le (content : Bytes) (off : Nat) (data : Bytes)
    (h : off ≤ content.length) :
    writeAt content off data = content.take off ++ data ++ content.drop (off + data.length) := by
  have h0 : off - content.length = 0 := by omega
  simp [writeAt, h0]

theorem slice_writeAt (content : Bytes) (off : Nat) (data : Bytes) :
    slice (writeAt content off data) off data.length = data := by
  have hl : (content.take off ++ List.replicate (off - content.length) 0).length = off := by
    simp only [List.length_append, List.length_take, List.length_replicate]; omega
  unfold writeAt
  rw [List.append_assoc, slice_append_right _ _ _ _ (by omega), hl, Nat.sub_self,
    slice_append_left _ _ _ _ (by omega)]
  simp [slice]

theorem GetCertTableInfo_loc_le {NewFile : Bytes → Except Error FileHeader} {file : Bytes}
    {loc off sz : Nat} (h : GetCertTableInfo NewFile file = .ok (loc, off, sz)) :
    loc ≤ file.length := by
  rcases GetCertTableInfo_ok_cases h with ⟨_, _, hl, rfl, _, _⟩ | ⟨_, _, hl, rfl, _, _⟩ |
    ⟨_, rfl, _, _⟩ <;> omega

/-- A source whose entry has a zero offset or a zero size: `SigRip` returns
`nil` and the file system is unchanged. -/
theorem SigRip_not_signed {NewFile : Bytes → Except Error FileHeader} (io : Faults) {fs : FS}
    {signedFilePath : String} (targetFilePath outputFilePath : String)
    {signedFile : Bytes} {loc off sz : Nat}
    (hs : fs.read signedFilePath = some signedFile)
    (hsrc : GetCertTableInfo NewFile signedFile = .ok (loc, off, sz))
    (hz : off = 0 ∨ sz = 0) :
    SigRip NewFile io fs signedFilePath targetFilePath outputFilePath = (fs, none) := by
  simp only [SigRip, hs, hsrc, hz, if_true]

/-- A signed source and a target on which `GetCertTableInfo` fails: `SigRip`
returns that error and the file system is unchanged. -/
theorem SigRip_target_error {NewFile : Bytes → Except Error FileHeader} (io : Faults) {fs : FS}
    {signedFilePath targetFilePath : String} (outputFilePath : String)
    {signedFile targetFile : Bytes} {loc off sz : Nat} {err : Error}
    (hs : fs.read signedFilePath = some signedFile)
    (hsrc : GetCertTableInfo NewFile signedFile = .ok (loc, off, sz))
    (hoff : off ≠ 0) (hsz : sz ≠ 0)
    (ht : fs.read targetFilePath = some targetFile)
    (htgt : GetCertTableInfo NewFile targetFile = .error err) :
    SigRip NewFile io fs signedFilePath targetFilePath outputFilePath = (fs, some err) := by
  have hz : ¬ (off = 0 ∨ sz = 0) := by omega
  simp only [SigRip, hs, hsrc, hz, if_false, ht, htgt]

/-- A signed source and a located target: a run that returns `nil` had no
failure of `os.OpenFile` or `io.Copy`. -/
theorem SigRip_success_faults {NewFile : Bytes → Except Error FileHeader} {io : Faults} {fs : FS}
    {signedFilePath targetFilePath outputFilePath : String}
    {signedFile targetFile : Bytes} {l off sz loc o2 s2 : Nat}
    (hs : fs.read signedFilePath = some signedFile)
    (hsrc : GetCertTableInfo NewFile signedFile = .ok (l, off, sz))
    (hoff : off ≠ 0) (hsz : sz ≠ 0)
    (ht : fs.read targetFilePath = some targetFile)
    (htgt : GetCertTableInfo NewFile targetFile = .ok (loc, o2, s2))
    (hsucc : (SigRip NewFile io fs signedFilePath targetFilePath outputFilePath).2 = none) :
    io.openOutput = none ∧ io.copy = none := by
  have hz : ¬ (off = 0 ∨ sz = 0) := by omega
  simp only [SigRip, hs, hsrc, hz, if_false, ht, htgt] at hsucc
  cases hopen : io.openOutput with
  | some err => rw [hopen] at hsucc; cases hsucc
  | none =>
    rw [hopen] at hsucc
    cases hcopy : io.copy with
    | some r => rw [hcopy] at hsucc; cases hsucc
    | none => exact ⟨rfl, rfl⟩

/-- A signed source, a located target and a run in which `os.OpenFile` and
`io.Copy` do not fail: the result of `SigRip`.  The copied bytes are those of
the target unless the output path names the target file. -/
theorem SigRip_run {NewFile : Bytes → Except Error FileHeader} {io : Faults} {fs : FS}
    {signedFilePath targetFilePath : String} (outputFilePath : String)
    {signedFile targetFile : Bytes} {l off sz loc o2 s2 : Nat}
    (hs : fs.read signedFilePath = some signedFile)
    (hsrc : GetCertTableInfo NewFile signedFile = .ok (l, off, sz))
    (hoff : off ≠ 0) (hsz : sz ≠ 0)
    (ht : fs.read targetFilePath = some targetFile)
    (htgt : GetCertTableInfo NewFile targetFile = .ok (loc, o2, s2))
    (hopen : io.openOutput = none) (hcopy : io.copy = none) :
    (SigRip NewFile io fs signedFilePath targetFilePath outputFilePath).2 = none
    ∧ (SigRip NewFile io fs signedFilePath targetFilePath outputFilePath).1.read outputFilePath
      = some (writeAt
          (if fs.resolve outputFilePath = fs.resolve targetFilePath then [] else targetFile) loc
          (putUint32 ((if fs.resolve outputFilePath = fs.resolve targetFilePath then []
              else targetFile).length % 2 ^ 32) ++ putUint32 sz)
          ++ readCert signedFile off sz)
    ∧ ∀ p, fs.resolve p ≠ fs.resolve outputFilePath →
        (SigRip NewFile io fs signedFilePath targetFilePath outputFilePath).1.read p
          = fs.read p := by
  have hz : ¬ (off = 0 ∨ sz = 0) := by omega
  have hlt : sz % 2 ^ 32 = sz := Nat.mod_eq_of_lt (GetCertTableInfo_size_lt hsrc)
  have hcopied : ((fs.write outputFilePath []).read targetFilePath).getD []
      = if fs.resolve outputFilePath = fs.resolve targetFilePath then [] else targetFile := by
    by_cases he : fs.resolve outputFilePath = fs.resolve targetFilePath
    · rw [FS.read_write_of_eq _ _ _ _ he.symm]; simp [he]
    · rw [FS.read_write_of_ne _ _ _ _ (fun h => he h.symm), ht]; simp [he]
  simp only [SigRip, hs, hsrc, hz, if_false, ht, htgt, hopen, hcopy, hcopied, readCert_length,
    hlt, FS.write_write]
  refine ⟨trivial, FS.read_write_same _ _ _, ?_⟩
  intro p hp
  exact FS.read_write_of_ne _ _ _ _ hp

/-- With an output path that does not name the target file and the entry
inside the target, the output of `SigRip` has the layout `transplanted`. -/
theorem SigRip_output {NewFile : Bytes → Except Error FileHeader} {io : Faults} {fs : FS}
    {signedFilePath targetFilePath outputFilePath : String}
    {signedFile targetFile : Bytes} {l off sz loc o2 s2 : Nat}
    (hs : fs.read signedFilePath = some signedFile)
    (hsrc : GetCertTableInfo NewFile signedFile = .ok (l, off, sz))
    (hoff : off ≠ 0) (hsz : sz ≠ 0)
    (ht : fs.read targetFilePath = some targetFile)
    (htgt : GetCertTableInfo NewFile targetFile = .ok (loc, o2, s2))
    (hopen : io.openOutput = none) (hcopy : io.copy = none)
    (hdiff : fs.resolve outputFilePath ≠ fs.resolve targetFilePath) :
    (SigRip NewFile io fs signedFilePath targetFilePath outputFilePath).1.read outputFilePath
      = some (transplanted targetFile loc (readCert signedFile off sz)) := by
  have hrun := (SigRip_run outputFilePath hs hsrc hoff hsz ht htgt hopen hcopy).2.1
  have hb := GetCertTableInfo_loc_le htgt
  have hlt : sz % 2 ^ 32 = sz := Nat.mod_eq_of_lt (GetCertTableInfo_size_lt hsrc)
  rw [hrun]
  simp only [hdiff, if_false]
  rw [writeAt_of_le _ _ _ hb]
  simp only [transplanted, readCert_length, hlt, putUint32_length, List.length_append,
    List.append_assoc]

theorem slice_zero (f : Bytes) (p : Nat) : slice f p 0 = [] := by
  simp [slice]

theorem slice_transplanted_high (target : Bytes) (loc : Nat) (cert : Bytes) (p n : Nat)
    (hloc : loc + 8 ≤ target.length) (hp : loc + 8 ≤ p) (hn : p + n ≤ target.length) :
    slice (transplanted target loc cert) p n = slice target p n := by
  have hl : (target.take loc
      ++ (putUint32 (target.length % 2 ^ 32) ++ putUint32 (cert.length % 2 ^ 32))).length
      = loc + 8 := by
    simp only [List.length_append, List.length_take, putUint32_length]; omega
  have hd : (target.drop (loc + 8)).length = target.length - (loc + 8) := by
    simp only [List.length_drop]
  unfold transplanted
  rw [slice_append_left _ _ _ _ (by simp only [List.length_append, hl, hd]; omega),
    slice_append_right _ _ _ _ (by rw [hl]; exact hp), hl]
  simp only [slice, List.drop_drop]
  congr 2
  omega

theorem writeAt_congr (c d : Bytes) (off : Nat) (data : Bytes) (hlen : c.length = d.length)
    (htake : c.take off = d.take off)
    (hdrop : c.drop (off + data.length) = d.drop (off + data.length)) :
    writeAt c off data = writeAt d off data := by
  simp only [writeAt, hlen, htake, hdrop]

/-- An image with an unrecognised `SizeOfOptionalHeader` that the library
accepts is located as three zeros. -/
theorem GetCertTableInfo_zero {NewFile : Bytes → Except Error FileHeader} {file : Bytes}
    {peFile : FileHeader} {size : Nat} (hNF : NewFile file = .ok peFile)
    (hsize : imageSizeOfOptionalHeader file = some size)
    (h32 : size ≠ 224) (h64 : size ≠ 240) :
    GetCertTableInfo NewFile file = .ok (0, 0, 0) ∧ 20 ≤ file.length := by
  unfold imageSizeOfOptionalHeader at hsize
  split_ifs at hsize with hlen
  have hv := Option.some.inj hsize
  rw [GetCertTableInfo_eq, hNF]
  simp only [hlen, hv, h32, h64, if_true, if_false]
  exact ⟨trivial, by omega⟩

theorem transplanted_split (target : Bytes) (loc : Nat) (cert : Bytes) :
    transplanted target loc cert
      = (target.take loc ++ (putUint32 (target.length % 2 ^ 32)
          ++ putUint32 (cert.length % 2 ^ 32)) ++ target.drop (loc + 8)) ++ cert := rfl

theorem patched_length (target : Bytes) (loc : Nat) (data : Bytes) (hd : data.length = 8)
    (h : loc + 8 ≤ target.length) :
    (target.take loc ++ data ++ target.drop (loc + 8)).length = target.length := by
  simp only [List.length_append, List.length_take, List.length_drop, hd]
  omega

/-- The shape of the output of `SigRip` when the output path does not name the
target file and the entry lies inside the target: the patched copy of the
target, as long as the target, then the certificate. -/
theorem SigRip_patched {NewFile : Bytes → Except Error FileHeader} {io : Faults} {fs : FS}
    {signedFilePath targetFilePath outputFilePath : String}
    {signedFile targetFile : Bytes} {l off sz loc o2 s2 : Nat}
    (hs : fs.read signedFilePath = some signedFile)
    (hsrc : GetCertTableInfo NewFile signedFile = .ok (l, off, sz))
    (hoff : off ≠ 0) (hsz : sz ≠ 0)
    (ht : fs.read targetFilePath = some targetFile)
    (htgt : GetCertTableInfo NewFile targetFile = .ok (loc, o2, s2))
    (hopen : io.openOutput = none) (hcopy : io.copy = none)
    (h8 : 8 ≤ targetFile.length)
    (hdiff : fs.resolve outputFilePath ≠ fs.resolve targetFilePath) :
    (SigRip NewFile io fs signedFilePath targetFilePath outputFilePath).1.read outputFilePath
      = some ((targetFile.take loc ++ (putUint32 (targetFile.length % 2 ^ 32) ++ putUint32 sz)
          ++ targetFile.drop (loc + 8)) ++ readCert signedFile off sz)
    ∧ (targetFile.take loc ++ (putUint32 (targetFile.length % 2 ^ 32) ++ putUint32 sz)
          ++ targetFile.drop (loc + 8)).length = targetFile.length
    ∧ uint32At ((targetFile.take loc ++ (putUint32 (targetFile.length % 2 ^ 32) ++ putUint32 sz)
          ++ targetFile.drop (loc + 8)) ++ readCert signedFile off sz) loc
        = targetFile.length % 2 ^ 32
    ∧ uint32At ((targetFile.take loc ++ (putUint32 (targetFile.length % 2 ^ 32) ++ putUint32 sz)
          ++ targetFile.drop (loc + 8)) ++ readCert signedFile off sz) (loc + 4)
        = sz := by
  have hb := GetCertTableInfo_loc_bound htgt h8
  have hlt : sz % 2 ^ 32 = sz := Nat.mod_eq_of_lt (GetCertTableInfo_size_lt hsrc)
  have hout := SigRip_output hs hsrc hoff hsz ht htgt hopen hcopy hdiff
  have hva := slice_transplanted_va targetFile loc (readCert signedFile off sz) (by omega)
  have hsize := slice_transplanted_size targetFile loc (readCert signedFile off sz) (by omega)
  rw [transplanted_split, readCert_length, hlt] at hout hva hsize
  refine ⟨hout, patched_length _ _ _ (by simp [putUint32_length]) hb, ?_, ?_⟩
  · simp only [uint32At, hva, leNat_putUint32, Nat.mod_mod]
  · simp only [uint32At, hsize, leNat_putUint32, hlt]

/-! ## The claims -/

/-- C1 (amended): for a signed source whose certificate range lies inside the
source, a target of at least eight bytes on which `GetCertTableInfo`
succeeds, and an output path that does not name the target file, a run of
`SigRip` that returns nil has written the target with the eight bytes at the
target's entry offset replaced by the little-endian pair
`(fileSize mod 2^32, certSize)`, followed by the `certSize` bytes of the
source at `certOffset`; the output is `fileSize + certSize` bytes long. -/
theorem SigRip_output_layout (NewFile : Bytes → Except Error FileHeader) (io : Faults) (fs : FS)
    (signedFilePath targetFilePath outputFilePath : String)
    (signedFile targetFile : Bytes) (l certOffset certSize entryOffset o2 s2 : Nat)
    (hs : fs.read signedFilePath = some signedFile)
    (hsrc : GetCertTableInfo NewFile signedFile = .ok (l, certOffset, certSize))
    (hoff : certOffset ≠ 0) (hsz : certSize ≠ 0)
    (hin : certOffset + certSize ≤ signedFile.length)
    (ht : fs.read targetFilePath = some targetFile)
    (htgt : GetCertTableInfo NewFile targetFile = .ok (entryOffset, o2, s2))
    (h8 : 8 ≤ targetFile.length)
    (hdiff : fs.resolve outputFilePath ≠ fs.resolve targetFilePath)
    (hsucc : (SigRip NewFile io fs signedFilePath targetFilePath outputFilePath).2 = none) :
    (SigRip NewFile io fs signedFilePath targetFilePath outputFilePath).1.read outputFilePath
      = some (targetFile.take entryOffset
          ++ (putUint32 (targetFile.length % 2 ^ 32) ++ putUint32 certSize)
          ++ targetFile.drop (entryOffset + 8) ++ slice signedFile certOffset certSize)
    ∧ ((SigRip NewFile io fs signedFilePath targetFilePath outputFilePath).1.read
        outputFilePath).map List.length = some (targetFile.length + certSize) := by
  obtain ⟨hopen, hcopy⟩ := SigRip_success_faults hs hsrc hoff hsz ht htgt hsucc
  have hout := SigRip_output hs hsrc hoff hsz ht htgt hopen hcopy hdiff
  have hb := GetCertTableInfo_loc_bound htgt h8
  have hlt : certSize % 2 ^ 32 = certSize := Nat.mod_eq_of_lt (GetCertTableInfo_size_lt hsrc)
  have hlen := transplanted_length targetFile entryOffset (readCert signedFile certOffset certSize) hb
  refine ⟨?_, ?_⟩
  · rw [hout]
    simp only [transplanted, readCert_length, hlt]
    rw [readCert_of_le hin]
  · rw [hout, Option.map_some', hlen, readCert_length]

/-- C1 witness: the scenario of the specification.  Source `A` is a signed
64-bit image with certificate `AA BB CC` at entry `(0x5000, 3)`, target `B`
is a 64-bit image of 4096 bytes, `out.exe` names another file and the run
returns nil; the output is `B` patched at 232 with `(4096, 3)` and followed
by `AA BB CC`, 4099 bytes in all. -/
theorem SigRip_output_layout_witness :
    exampleFS.resolve "out.exe" ≠ exampleFS.resolve "B.exe"
    ∧ (SigRip headerNewFile noFaults exampleFS "A.exe" "B.exe" "out.exe").2 = none
    ∧ (SigRip headerNewFile noFaults exampleFS "A.exe" "B.exe" "out.exe").1.read "out.exe"
      = some (imageB.take 232 ++ (putUint32 4096 ++ putUint32 3) ++ imageB.drop (232 + 8)
          ++ [0xAA, 0xBB, 0xCC])
    ∧ ((SigRip headerNewFile noFaults exampleFS "A.exe" "B.exe" "out.exe").1.read
        "out.exe").map List.length = some 4099 := by
  have hB : GetCertTableInfo headerNewFile imageB = .ok (232, 0, 0) := by decide!
  have hsucc : (SigRip headerNewFile noFaults exampleFS "A.exe" "B.exe" "out.exe").2 = none :=
    (@SigRip_run headerNewFile noFaults exampleFS "A.exe" "B.exe" "out.exe" imageA imageB
      232 0x5000 3 232 0 0 rfl GetCertTableInfo_imageA (by decide) (by decide) rfl hB rfl
      rfl).1
  have h := SigRip_output_layout headerNewFile noFaults exampleFS "A.exe" "B.exe" "out.exe"
    imageA imageB 232 0x5000 3 232 0 0 rfl GetCertTableInfo_imageA (by decide) (by decide)
    imageA_cert_inside rfl hB (by rw [imageB_length]; decide) (by decide) hsucc
  rw [slice_imageA, imageB_length] at h
  exact ⟨by decide, hsucc, h⟩

/-- C1 counterexample: two runs that return nil on a signed source without
producing the claimed output.  In the first the entry `(328, 3)` of the
source points past the end of its 329 bytes: the output ends with three zero
bytes, not with bytes of the source.  In the second the output path
`./unsigned32.exe` names the target file `unsigned32.exe`: the 312-byte
target is emptied before it is copied and the output has 227 bytes instead
of 315. -/
theorem SigRip_output_layout_counterexample :
    (GetCertTableInfo headerNewFile truncated64 = .ok (232, 328, 3)
      ∧ truncated64.length = 329
      ∧ slice truncated64 328 3 = [0xAA]
      ∧ GetCertTableInfo headerNewFile (headers32 0 0) = .ok (216, 0, 0)
      ∧ (SigRip headerNewFile noFaults exampleFS "truncated64.exe" "unsigned32.exe"
          "out.exe").2 = none
      ∧ (SigRip headerNewFile noFaults exampleFS "truncated64.exe" "unsigned32.exe"
          "out.exe").1.read "out.exe"
        = some ((headers32 0 0).take 216 ++ (putUint32 312 ++ putUint32 3)
            ++ (headers32 0 0).drop (216 + 8) ++ [0, 0, 0])
      ∧ (SigRip headerNewFile noFaults exampleFS "truncated64.exe" "unsigned32.exe"
          "out.exe").1.read "out.exe"
        ≠ some ((headers32 0 0).take 216 ++ (putUint32 312 ++ putUint32 3)
            ++ (headers32 0 0).drop (216 + 8) ++ slice truncated64 328 3))
    ∧ (GetCertTableInfo headerNewFile signed64 = .ok (232, 328, 3)
      ∧ (headers32 0 0).length = 312
      ∧ "./unsigned32.exe" ≠ "unsigned32.exe"
      ∧ exampleFS.resolve "./unsigned32.exe" = exampleFS.resolve "unsigned32.exe"
      ∧ (SigRip headerNewFile noFaults exampleFS "signed64.exe" "unsigned32.exe"
          "./unsigned32.exe").2 = none
      ∧ (SigRip headerNewFile noFaults exampleFS "signed64.exe" "unsigned32.exe"
          "./unsigned32.exe").1.read "./unsigned32.exe"
        = some (List.replicate 216 0 ++ (putUint32 0 ++ putUint32 3) ++ [0xAA, 0xBB, 0xCC])
      ∧ (SigRip headerNewFile noFaults exampleFS "signed64.exe" "unsigned32.exe"
          "./unsigned32.exe").1.read "./unsigned32.exe"
        ≠ some ((headers32 0 0).take 216 ++ (putUint32 312 ++ putUint32 3)
            ++ (headers32 0 0).drop (216 + 8) ++ slice signed64 328 3)) := by
  decide!

/-- C2: when `GetCertTableInfo` succeeds on an image whose File Header gives
`SizeOfOptionalHeader` as 224 or 240, the eight bytes at the returned entry
location lie inside the image and the returned offset and size are the two
little-endian `uint32` values stored there. -/
theorem GetCertTableInfo_reads_entry (NewFile : Bytes → Except Error FileHeader) (file : Bytes)
    (entryOffset certOffset certSize : Nat)
    (h : GetCertTableInfo NewFile file = .ok (entryOffset, certOffset, certSize))
    (hrec : imageSizeOfOptionalHeader file = some 224
      ∨ imageSizeOfOptionalHeader file = some 240) :
    entryOffset + 8 ≤ file.length
    ∧ certOffset = leNat (slice file entryOffset 4)
    ∧ certSize = leNat (slice file (entryOffset + 4) 4) := by
  rcases recognised_cases h hrec with ⟨_, h2, h3, h4, h5⟩ | ⟨_, h2, h3, h4, h5⟩
  · exact ⟨by omega, h4, h5⟩
  · exact ⟨by omega, h4, h5⟩

/-- C2 witness: the signed 64-bit image, entry `(328, 3)` stored at 232. -/
theorem GetCertTableInfo_reads_entry_witness :
    GetCertTableInfo headerNewFile signed64 = .ok (232, 328, 3)
    ∧ imageSizeOfOptionalHeader signed64 = some 240
    ∧ (232 + 8 ≤ signed64.length
      ∧ 328 = leNat (slice signed64 232 4)
      ∧ 3 = leNat (slice signed64 (232 + 4) 4)) :=
  ⟨by decide!, by decide!,
    GetCertTableInfo_reads_entry headerNewFile signed64 232 328 3 (by decide!)
      (Or.inr (by decide!))⟩

/-- C3 (code behaviour): for a source whose entry has a zero offset or a zero
size, `SigRip` returns nil, the success value, where the claim asks for a
non-nil error. -/
theorem SigRip_unsigned_returns_nil (NewFile : Bytes → Except Error FileHeader) (io : Faults)
    (fs : FS) (signedFilePath targetFilePath outputFilePath : String)
    (signedFile : Bytes) (entryOffset certOffset certSize : Nat)
    (hs : fs.read signedFilePath = some signedFile)
    (hsrc : GetCertTableInfo NewFile signedFile = .ok (entryOffset, certOffset, certSize))
    (hz : certOffset = 0 ∨ certSize = 0) :
    (SigRip NewFile io fs signedFilePath targetFilePath outputFilePath).2 = none := by
  rw [SigRip_not_signed io targetFilePath outputFilePath hs hsrc hz]

/-- C3 witness: an unsigned 64-bit source, entry `(0, 0)`. -/
theorem SigRip_unsigned_returns_nil_witness :
    GetCertTableInfo headerNewFile (headers64 0 0) = .ok (232, 0, 0)
    ∧ (SigRip headerNewFile noFaults exampleFS "unsigned64.exe" "B.exe" "out.exe").2 = none :=
  ⟨by decide!,
    SigRip_unsigned_returns_nil headerNewFile noFaults exampleFS "unsigned64.exe" "B.exe"
      "out.exe" (headers64 0 0) 232 0 0 rfl (by decide!) (Or.inl rfl)⟩

/-- C4 (code behaviour): for an image that the library accepts and whose File
Header gives a `SizeOfOptionalHeader` other than 224 and 240,
`GetCertTableInfo` returns three zeros and no error, where the claim asks for
an error. -/
theorem GetCertTableInfo_unrecognised (NewFile : Bytes → Except Error FileHeader) (file : Bytes)
    (peFile : FileHeader) (size : Nat)
    (hNF : NewFile file = .ok peFile)
    (hsize : imageSizeOfOptionalHeader file = some size)
    (h32 : size ≠ 224) (h64 : size ≠ 240) :
    GetCertTableInfo NewFile file = .ok (0, 0, 0) := by
  unfold imageSizeOfOptionalHeader at hsize
  split_ifs at hsize with hlen
  have hv := Option.some.inj hsize
  rw [GetCertTableInfo_eq, hNF]
  simp only [hlen, hv, h32, h64, if_true, if_false]

/-- C4 witness: a 96-byte COFF object header, `SizeOfOptionalHeader = 0`. -/
theorem GetCertTableInfo_unrecognised_witness :
    imageSizeOfOptionalHeader objectImage = some 0
    ∧ GetCertTableInfo headerNewFile objectImage = .ok (0, 0, 0) :=
  ⟨by decide!,
    GetCertTableInfo_unrecognised headerNewFile objectImage
      (decodeFileHeader (slice objectImage 0 20)) 0 (by decide!) (by decide!) (by decide)
      (by decide)⟩

/-- C5 (amended): for a signed source and a target whose File Header gives
`SizeOfOptionalHeader` as 224 or 240, with an output path that does not name
the target file and a run of `SigRip` that returns nil, once the library
accepts the output image `GetCertTableInfo` on it returns the target's entry
offset together with `(fileSize mod 2^32, certSize)`. -/
theorem GetCertTableInfo_after_SigRip (NewFile : Bytes → Except Error FileHeader) (io : Faults)
    (fs : FS) (signedFilePath targetFilePath outputFilePath : String)
    (signedFile targetFile output : Bytes) (l certOffset certSize entryOffset o2 s2 : Nat)
    (peFile : FileHeader)
    (hs : fs.read signedFilePath = some signedFile)
    (hsrc : GetCertTableInfo NewFile signedFile = .ok (l, certOffset, certSize))
    (hoff : certOffset ≠ 0) (hsz : certSize ≠ 0)
    (ht : fs.read targetFilePath = some targetFile)
    (htgt : GetCertTableInfo NewFile targetFile = .ok (entryOffset, o2, s2))
    (hrec : imageSizeOfOptionalHeader targetFile = some 224
      ∨ imageSizeOfOptionalHeader targetFile = some 240)
    (hdiff : fs.resolve outputFilePath ≠ fs.resolve targetFilePath)
    (hsucc : (SigRip NewFile io fs signedFilePath targetFilePath outputFilePath).2 = none)
    (hout : (SigRip NewFile io fs signedFilePath targetFilePath outputFilePath).1.read
      outputFilePath = some output)
    (hNF : NewFile output = .ok peFile) :
    GetCertTableInfo NewFile output
      = .ok (entryOffset, targetFile.length % 2 ^ 32, certSize) := by
  obtain ⟨hopen, hcopy⟩ := SigRip_success_faults hs hsrc hoff hsz ht htgt hsucc
  have hcase := recognised_cases htgt hrec
  have hlt : certSize % 2 ^ 32 = certSize := Nat.mod_eq_of_lt (GetCertTableInfo_size_lt hsrc)
  rw [SigRip_output hs hsrc hoff hsz ht htgt hopen hcopy hdiff] at hout
  have hout' := Option.some.inj hout
  subst hout'
  have hres := GetCertTableInfo_transplanted hNF
    (hcase.imp (fun ⟨a, b, c, _⟩ => ⟨a, b, c⟩) (fun ⟨a, b, c, _⟩ => ⟨a, b, c⟩))
  rw [hres, readCert_length, hlt]

/-- C5 witness: the signed 64-bit source transplanted onto the unsigned 32-bit
target of 312 bytes; the output is located again at 216 with `(312, 3)`. -/
theorem GetCertTableInfo_after_SigRip_witness :
    (SigRip headerNewFile noFaults exampleFS "signed64.exe" "unsigned32.exe" "out.exe").2 = none
    ∧ (SigRip headerNewFile noFaults exampleFS "signed64.exe" "unsigned32.exe"
        "out.exe").1.read "out.exe"
      = some (transplanted (headers32 0 0) 216 [0xAA, 0xBB, 0xCC])
    ∧ GetCertTableInfo headerNewFile (transplanted (headers32 0 0) 216 [0xAA, 0xBB, 0xCC])
      = .ok (216, 312, 3) := by
  have h := GetCertTableInfo_after_SigRip headerNewFile noFaults exampleFS "signed64.exe"
    "unsigned32.exe" "out.exe" signed64 (headers32 0 0)
    (transplanted (headers32 0 0) 216 [0xAA, 0xBB, 0xCC]) 232 328 3 216 0 0
    (decodeFileHeader (slice (headers32 0 0) 68 20))
    rfl (by decide!) (by decide) (by decide) rfl (by decide!) (Or.inl (by decide!))
    (by decide) (by decide!) (by decide!) (by decide!)
  have hl : (headers32 0 0).length = 312 := by decide!
  rw [hl] at h
  exact ⟨by decide!, by decide!, h⟩

/-- C5 counterexample: two runs that return nil on a signed source after which
the output is not located as claimed.  On the object image, whose
`SizeOfOptionalHeader` is 0, the returned entry offset is 0, the pair
`(96, 3)` overwrites the first eight bytes, and `GetCertTableInfo` on the
output never returns `(0, 96, 3)`, whatever the library says.  With the
output path `./unsigned32.exe`, which names the target file, the target is
emptied before the copy, and the output is located as `(0, 0, 0)` instead of
`(216, _, 3)`. -/
theorem GetCertTableInfo_after_SigRip_counterexample :
    (GetCertTableInfo headerNewFile signed64 = .ok (232, 328, 3)
      ∧ GetCertTableInfo headerNewFile objectImage = .ok (0, 0, 0)
      ∧ objectImage.length = 96
      ∧ (SigRip headerNewFile noFaults exampleFS "signed64.exe" "object.o" "out.exe").2 = none
      ∧ (SigRip headerNewFile noFaults exampleFS "signed64.exe" "object.o"
          "out.exe").1.read "out.exe"
        = some (transplanted objectImage 0 [0xAA, 0xBB, 0xCC])
      ∧ GetCertTableInfo headerNewFile (transplanted objectImage 0 [0xAA, 0xBB, 0xCC])
        = .error (.peNewFile 3)
      ∧ ∀ NewFile : Bytes → Except Error FileHeader,
          GetCertTableInfo NewFile (transplanted objectImage 0 [0xAA, 0xBB, 0xCC])
            ≠ .ok (0, 96, 3))
    ∧ (GetCertTableInfo headerNewFile (headers32 0 0) = .ok (216, 0, 0)
      ∧ "./unsigned32.exe" ≠ "unsigned32.exe"
      ∧ exampleFS.resolve "./unsigned32.exe" = exampleFS.resolve "unsigned32.exe"
      ∧ (SigRip headerNewFile noFaults exampleFS "signed64.exe" "unsigned32.exe"
          "./unsigned32.exe").2 = none
      ∧ (SigRip headerNewFile noFaults exampleFS "signed64.exe" "unsigned32.exe"
          "./unsigned32.exe").1.read "./unsigned32.exe"
        = some (List.replicate 216 0 ++ (putUint32 0 ++ putUint32 3) ++ [0xAA, 0xBB, 0xCC])
      ∧ GetCertTableInfo headerNewFile
          (List.replicate 216 0 ++ (putUint32 0 ++ putUint32 3) ++ [0xAA, 0xBB, 0xCC])
        = .ok (0, 0, 0)) := by
  refine ⟨⟨by decide!, by decide!, by decide!, by decide!, by decide!, by decide!, ?_⟩,
    by decide!⟩
  intro NewFile
  have hb : headerBase (transplanted objectImage 0 [0xAA, 0xBB, 0xCC]) = 0 := by decide!
  have hl : (transplanted objectImage 0 [0xAA, 0xBB, 0xCC]).length = 99 := by decide!
  have hu : uint16At (transplanted objectImage 0 [0xAA, 0xBB, 0xCC]) (0 + 16) = 0 := by decide!
  rw [GetCertTableInfo_eq]
  cases NewFile (transplanted objectImage 0 [0xAA, 0xBB, 0xCC]) with
  | error err => simp
  | ok peFile =>
    have e1 : (0 : Nat) + 20 ≤ 99 := by decide
    have e2 : ¬ ((0 : Nat) = 224) := by decide
    have e3 : ¬ ((0 : Nat) = 240) := by decide
    simp only [hb, hl, hu, e1, e2, e3, if_true, if_false]
    decide

/-- C6 (code behaviour): for a signed source whose certificate range runs past
the end of the source, a run of `SigRip` in which `os.OpenFile` and `io.Copy`
do not fail still returns nil and appends `certSize` zero bytes, where the
claim asks for an error. -/
theorem SigRip_short_certificate (NewFile : Bytes → Except Error FileHeader) (io : Faults)
    (fs : FS) (signedFilePath targetFilePath outputFilePath : String)
    (signedFile targetFile : Bytes) (l certOffset certSize entryOffset o2 s2 : Nat)
    (hs : fs.read signedFilePath = some signedFile)
    (hsrc : GetCertTableInfo NewFile signedFile = .ok (l, certOffset, certSize))
    (hoff : certOffset ≠ 0) (hsz : certSize ≠ 0)
    (hshort : signedFile.length < certOffset + certSize)
    (ht : fs.read targetFilePath = some targetFile)
    (htgt : GetCertTableInfo NewFile targetFile = .ok (entryOffset, o2, s2))
    (hopen : io.openOutput = none) (hcopy : io.copy = none) :
    (SigRip NewFile io fs signedFilePath targetFilePath outputFilePath).2 = none
    ∧ ∃ copied : Bytes,
        (SigRip NewFile io fs signedFilePath targetFilePath outputFilePath).1.read outputFilePath
          = some (copied ++ List.replicate certSize 0) := by
  have hrun := SigRip_run outputFilePath hs hsrc hoff hsz ht htgt hopen hcopy
  refine ⟨hrun.1, ?_⟩
  rw [hrun.2.1, readCert_of_lt hshort]
  exact ⟨_, rfl⟩

/-- C6 witness: the 329-byte source whose entry `(328, 3)` has one byte left. -/
theorem SigRip_short_certificate_witness :
    truncated64.length < 328 + 3
    ∧ (SigRip headerNewFile noFaults exampleFS "truncated64.exe" "unsigned32.exe"
        "out.exe").2 = none
    ∧ ∃ copied : Bytes,
        (SigRip headerNewFile noFaults exampleFS "truncated64.exe" "unsigned32.exe"
          "out.exe").1.read "out.exe" = some (copied ++ List.replicate 3 0) :=
  ⟨by decide!,
    SigRip_short_certificate headerNewFile noFaults exampleFS "truncated64.exe"
      "unsigned32.exe" "out.exe" truncated64 (headers32 0 0) 232 328 3 216 0 0 rfl (by decide!)
      (by decide) (by decide) (by decide!) rfl (by decide!) rfl rfl⟩

/-- C7: for a source whose entry has a zero offset or a zero size, `SigRip`
leaves every file as it was; in particular the output path is neither
created, truncated nor written. -/
theorem SigRip_unsigned_frame (NewFile : Bytes → Except Error FileHeader) (io : Faults)
    (fs : FS) (signedFilePath targetFilePath outputFilePath : String)
    (signedFile : Bytes) (entryOffset certOffset certSize : Nat)
    (hs : fs.read signedFilePath = some signedFile)
    (hsrc : GetCertTableInfo NewFile signedFile = .ok (entryOffset, certOffset, certSize))
    (hz : certOffset = 0 ∨ certSize = 0) :
    (SigRip NewFile io fs signedFilePath targetFilePath outputFilePath).1 = fs := by
  rw [SigRip_not_signed io targetFilePath outputFilePath hs hsrc hz]

/-- C7 witness: an unsigned 32-bit source; the existing file `old.bin` named
as output keeps its three bytes, and a missing output is not created. -/
theorem SigRip_unsigned_frame_witness :
    GetCertTableInfo headerNewFile (headers32 0 0) = .ok (216, 0, 0)
    ∧ (SigRip headerNewFile noFaults exampleFS "unsigned32.exe" "B.exe" "old.bin").1 = exampleFS
    ∧ (SigRip headerNewFile noFaults exampleFS "unsigned32.exe" "B.exe" "old.bin").1.read
        "old.bin" = some [1, 2, 3] := by
  have h := SigRip_unsigned_frame headerNewFile noFaults exampleFS "unsigned32.exe" "B.exe"
    "old.bin" (headers32 0 0) 216 0 0 rfl (by decide!) (Or.inl rfl)
  exact ⟨by decide!, h, by rw [h]; rfl⟩

/-- C8: for a signed source and a target on which `GetCertTableInfo` returns an
error, `SigRip` returns that error and leaves every file as it was: the
output path is neither created, truncated nor written. -/
theorem SigRip_target_error_frame (NewFile : Bytes → Except Error FileHeader) (io : Faults)
    (fs : FS) (signedFilePath targetFilePath outputFilePath : String)
    (signedFile targetFile : Bytes) (l certOffset certSize : Nat) (err : Error)
    (hs : fs.read signedFilePath = some signedFile)
    (hsrc : GetCertTableInfo NewFile signedFile = .ok (l, certOffset, certSize))
    (hoff : certOffset ≠ 0) (hsz : certSize ≠ 0)
    (ht : fs.read targetFilePath = some targetFile)
    (htgt : GetCertTableInfo NewFile targetFile = .error err) :
    (SigRip NewFile io fs signedFilePath targetFilePath outputFilePath).2 = some err
    ∧ (SigRip NewFile io fs signedFilePath targetFilePath outputFilePath).1 = fs := by
  rw [SigRip_target_error io outputFilePath hs hsrc hoff hsz ht htgt]
  exact ⟨rfl, rfl⟩

/-- C8 witness: a four-byte target `MZ 90 00`; the error of the library's open
is returned and `old.bin` keeps its three bytes. -/
theorem SigRip_target_error_frame_witness :
    GetCertTableInfo headerNewFile [0x4D, 0x5A, 0x90, 0x00] = .error (.peNewFile 0)
    ∧ (SigRip headerNewFile noFaults exampleFS "signed64.exe" "short.bin" "old.bin").2
      = some (.peNewFile 0)
    ∧ (SigRip headerNewFile noFaults exampleFS "signed64.exe" "short.bin" "old.bin").1
      = exampleFS :=
  ⟨by decide!,
    SigRip_target_error_frame headerNewFile noFaults exampleFS "signed64.exe" "short.bin"
      "old.bin" signed64 [0x4D, 0x5A, 0x90, 0x00] 232 328 3 (.peNewFile 0) rfl (by decide!)
      (by decide) (by decide) rfl (by decide!)⟩

/-- C9: when `GetCertTableInfo` succeeds on an image whose File Header gives
`SizeOfOptionalHeader` as 224 (resp. 240), the returned entry offset is
`base + 20 + 128` (resp. `base + 20 + 144`), where `base` is four past the
little-endian `uint32` at `0x3C` for an image that starts with `M`, `Z` and
zero for every other image. -/
theorem GetCertTableInfo_entry_offset (NewFile : Bytes → Except Error FileHeader)
    (file : Bytes) (entryOffset certOffset certSize : Nat)
    (h : GetCertTableInfo NewFile file = .ok (entryOffset, certOffset, certSize)) :
    (imageSizeOfOptionalHeader file = some 224 →
      entryOffset
        = (if file.take 2 = [0x4D, 0x5A] then leNat (slice file 0x3C 4) + 4 else 0) + 20 + 128)
    ∧ (imageSizeOfOptionalHeader file = some 240 →
      entryOffset
        = (if file.take 2 = [0x4D, 0x5A] then leNat (slice file 0x3C 4) + 4 else 0) + 20 + 144) := by
  constructor
  · intro hsize
    rcases recognised_cases h (Or.inl hsize) with ⟨_, _, h3, _⟩ | ⟨h1, _, _, _⟩
    · exact h3
    · exfalso
      unfold imageSizeOfOptionalHeader at hsize
      split_ifs at hsize
      have := Option.some.inj hsize
      omega
  · intro hsize
    rcases recognised_cases h (Or.inr hsize) with ⟨h1, _, _, _⟩ | ⟨_, _, h3, _⟩
    · exfalso
      unfold imageSizeOfOptionalHeader at hsize
      split_ifs at hsize
      have := Option.some.inj hsize
      omega
    · exact h3

/-- C9 witness: a 64-bit image with a DOS stub pointing at 64 (entry at
`64 + 4 + 20 + 144 = 232`) and a 32-bit image without a stub (entry at 148). -/
theorem GetCertTableInfo_entry_offset_witness :
    (GetCertTableInfo headerNewFile signed64 = .ok (232, 328, 3)
      ∧ imageSizeOfOptionalHeader signed64 = some 240
      ∧ signed64.take 2 = [0x4D, 0x5A] ∧ leNat (slice signed64 0x3C 4) = 64
      ∧ 232 = (if signed64.take 2 = [0x4D, 0x5A] then leNat (slice signed64 0x3C 4) + 4 else 0)
          + 20 + 144)
    ∧ (GetCertTableInfo headerNewFile headerless32 = .ok (148, 244, 3)
      ∧ imageSizeOfOptionalHeader headerless32 = some 224
      ∧ headerless32.take 2 ≠ [0x4D, 0x5A]
      ∧ 148 = (if headerless32.take 2 = [0x4D, 0x5A] then leNat (slice headerless32 0x3C 4) + 4
          else 0) + 20 + 128) :=
  ⟨⟨by decide!, by decide!, by decide!, by decide!,
      (GetCertTableInfo_entry_offset headerNewFile signed64 232 328 3 (by decide!)).2
        (by decide!)⟩,
    ⟨by decide!, by decide!, by decide!,
      (GetCertTableInfo_entry_offset headerNewFile headerless32 148 244 3 (by decide!)).1
        (by decide!)⟩⟩


/-- C10: for a signed source and a target on which `GetCertTableInfo` succeeds,
each with `SizeOfOptionalHeader` 224 or 240 in its File Header (the two may
differ), a run of `SigRip` in which `os.OpenFile` and `io.Copy` do not fail
returns nil; the certificate is read with the offset and size stored at the
source's own entry (source base + 20 + 128 or 144); and in the output, which
ends with the `certSize` bytes of the certificate (the bytes of the source at
`certOffset` when they exist), the eight bytes at the target's own entry offset
(target base + 20 + 128 or 144, whatever the source is) are a little-endian
pair whose second half is `certSize`.  When the output path does not name
the target file the rest of the output is the target and the first half of
the pair is `fileSize mod 2^32`. -/
theorem SigRip_mixed_architectures (NewFile : Bytes → Except Error FileHeader) (io : Faults)
    (fs : FS) (signedFilePath targetFilePath outputFilePath : String)
    (signedFile targetFile : Bytes) (l certOffset certSize entryOffset o2 s2 a b : Nat)
    (hs : fs.read signedFilePath = some signedFile)
    (hsrc : GetCertTableInfo NewFile signedFile = .ok (l, certOffset, certSize))
    (hoff : certOffset ≠ 0) (hsz : certSize ≠ 0)
    (ht : fs.read targetFilePath = some targetFile)
    (htgt : GetCertTableInfo NewFile targetFile = .ok (entryOffset, o2, s2))
    (ha : imageSizeOfOptionalHeader signedFile = some a) (ha' : a = 224 ∨ a = 240)
    (hb : imageSizeOfOptionalHeader targetFile = some b) (hb' : b = 224 ∨ b = 240)
    (hopen : io.openOutput = none) (hcopy : io.copy = none) :
    (SigRip NewFile io fs signedFilePath targetFilePath outputFilePath).2 = none
    ∧ certOffset
      = uint32At signedFile (headerBase signedFile + 20 + (if a = 224 then 128 else 144))
    ∧ certSize
      = uint32At signedFile (headerBase signedFile + 20 + (if a = 224 then 128 else 144) + 4)
    ∧ ∃ (patched cert : Bytes) (va : Nat),
        (SigRip NewFile io fs signedFilePath targetFilePath outputFilePath).1.read outputFilePath
          = some (patched ++ cert)
        ∧ cert.length = certSize
        ∧ (certOffset + certSize ≤ signedFile.length →
            cert = slice signedFile certOffset certSize)
        ∧ slice patched (headerBase targetFile + 20 + (if b = 224 then 128 else 144)) 8
          = putUint32 va ++ putUint32 certSize
        ∧ (fs.resolve outputFilePath ≠ fs.resolve targetFilePath →
            patched
              = targetFile.take (headerBase targetFile + 20 + (if b = 224 then 128 else 144))
                ++ (putUint32 (targetFile.length % 2 ^ 32) ++ putUint32 certSize)
                ++ targetFile.drop
                  (headerBase targetFile + 20 + (if b = 224 then 128 else 144) + 8)) := by
  have hrun := SigRip_run outputFilePath hs hsrc hoff hsz ht htgt hopen hcopy
  have hA : l = headerBase signedFile + 20 + (if a = 224 then 128 else 144)
      ∧ certOffset = uint32At signedFile l ∧ certSize = uint32At signedFile (l + 4) := by
    have hsoh : uint16At signedFile (headerBase signedFile + 16) = a := by
      unfold imageSizeOfOptionalHeader at ha
      split_ifs at ha
      exact Option.some.inj ha
    rcases recognised_cases hsrc (by rcases ha' with rfl | rfl <;> simp [ha]) with
      ⟨h1, _, h3, h4, h5⟩ | ⟨h1, _, h3, h4, h5⟩
    · have : a = 224 := by omega
      simp only [this, if_true]
      exact ⟨h3, h4, h5⟩
    · have : a = 240 := by omega
      simp only [this]
      exact ⟨h3, h4, h5⟩
  have hB : entryOffset = headerBase targetFile + 20 + (if b = 224 then 128 else 144) := by
    have hsoh : uint16At targetFile (headerBase targetFile + 16) = b := by
      unfold imageSizeOfOptionalHeader at hb
      split_ifs at hb
      exact Option.some.inj hb
    rcases recognised_cases htgt (by rcases hb' with rfl | rfl <;> simp [hb]) with
      ⟨h1, _, h3, _⟩ | ⟨h1, _, h3, _⟩
    · have : b = 224 := by omega
      simp only [this, if_true]
      exact h3
    · have : b = 240 := by omega
      simp only [this]
      exact h3
  obtain ⟨hl, ho, hz⟩ := hA
  have hle := GetCertTableInfo_loc_le htgt
  refine ⟨hrun.1, ?_, ?_, _, readCert signedFile certOffset certSize,
    (if fs.resolve outputFilePath = fs.resolve targetFilePath then [] else targetFile).length
      % 2 ^ 32, hrun.2.1, readCert_length _ _ _, fun hin => readCert_of_le hin, ?_, ?_⟩
  · rw [← hl]; exact ho
  · rw [← hl]; exact hz
  · rw [← hB]
    exact slice_writeAt _ entryOffset (putUint32 _ ++ putUint32 certSize)
  · intro hdiff
    rw [← hB]
    simp only [hdiff, if_false]
    rw [writeAt_of_le _ _ _ hle]
    rfl

/-- C10 witness: the signed 32-bit source with the unsigned 64-bit target, and
the signed 64-bit source with the unsigned 32-bit target. -/
theorem SigRip_mixed_architectures_witness :
    ((SigRip headerNewFile noFaults exampleFS "signed32.exe" "unsigned64.exe" "out.exe").2 = none
      ∧ (SigRip headerNewFile noFaults exampleFS "signed32.exe" "unsigned64.exe"
          "out.exe").1.read "out.exe"
        = some ((headers64 0 0).take 232 ++ (putUint32 328 ++ putUint32 3)
            ++ (headers64 0 0).drop 240 ++ [0x11, 0x22, 0x33]))
    ∧ ((SigRip headerNewFile noFaults exampleFS "signed64.exe" "unsigned32.exe" "out.exe").2
        = none
      ∧ (SigRip headerNewFile noFaults exampleFS "signed64.exe" "unsigned32.exe"
          "out.exe").1.read "out.exe"
        = some ((headers32 0 0).take 216 ++ (putUint32 312 ++ putUint32 3)
            ++ (headers32 0 0).drop 224 ++ [0xAA, 0xBB, 0xCC])) := by
  have h1 := SigRip_mixed_architectures headerNewFile noFaults exampleFS "signed32.exe"
    "unsigned64.exe" "out.exe" signed32 (headers64 0 0) 216 312 3 232 0 0 224 240
    rfl (by decide!) (by decide) (by decide) rfl (by decide!) (by decide!) (Or.inl rfl)
    (by decide!) (Or.inr rfl) rfl rfl
  have h2 := SigRip_mixed_architectures headerNewFile noFaults exampleFS "signed64.exe"
    "unsigned32.exe" "out.exe" signed64 (headers32 0 0) 232 328 3 216 0 0 240 224
    rfl (by decide!) (by decide) (by decide) rfl (by decide!) (by decide!) (Or.inr rfl)
    (by decide!) (Or.inl rfl) rfl rfl
  exact ⟨⟨h1.1, by decide!⟩, ⟨h2.1, by decide!⟩⟩

/-- C11 (code behaviour): for an image whose File Header selects the 32-bit
(resp. 64-bit) layout, whose Optional Header `Magic` is not 0x10b (resp.
0x20b) and which the open of the library, which checks the magic, rejects,
`GetCertTableInfo` fails: it returns the error of the library at line 104,
before the printing check of lines 144-146 is reached, where the claim says
that it does not fail; its result is not the one on the image with the
expected `Magic` when that image is located. -/
theorem GetCertTableInfo_rejects_wrong_magic (NewFile : Bytes → Except Error FileHeader)
    (file : Bytes) (size : Nat) (err : Error)
    (_hsize : imageSizeOfOptionalHeader file = some size)
    (_hrec : size = 224 ∨ size = 240)
    (_hmagic : uint16At file (headerBase file + 20) ≠ (if size = 224 then 0x10b else 0x20b))
    (hNF : NewFile file = .error err) :
    GetCertTableInfo NewFile file = .error err
    ∧ ∀ r : Nat × Nat × Nat,
        GetCertTableInfo NewFile (withMagic file (if size = 224 then 0x10b else 0x20b)) = .ok r →
        GetCertTableInfo NewFile file
          ≠ GetCertTableInfo NewFile (withMagic file (if size = 224 then 0x10b else 0x20b)) := by
  have h : GetCertTableInfo NewFile file = .error err := by
    simp only [GetCertTableInfo, hNF]
  refine ⟨h, fun r hr => ?_⟩
  rw [h, hr]
  exact fun hne => Except.noConfusion hne

/-- C11 witness: the signed 32-bit image with `Magic` 0.  With `Magic` 0x10b it
is `signed32`, located as `(216, 312, 3)`; as it stands the open rejects it,
`GetCertTableInfo` returns that error and so does `SigRip` with it as
source. -/
theorem GetCertTableInfo_rejects_wrong_magic_witness :
    imageSizeOfOptionalHeader badMagic32 = some 224
    ∧ uint16At badMagic32 (headerBase badMagic32 + 20) = 0
    ∧ withMagic badMagic32 0x10b = signed32
    ∧ GetCertTableInfo headerNewFile signed32 = .ok (216, 312, 3)
    ∧ GetCertTableInfo headerNewFile badMagic32 = .error (.peNewFile 5)
    ∧ (SigRip headerNewFile noFaults exampleFS "badmagic32.exe" "unsigned64.exe" "out.exe").2
      = some (.peNewFile 5) :=
  ⟨by decide!, by decide!, by decide!, by decide!,
    (GetCertTableInfo_rejects_wrong_magic headerNewFile badMagic32 224 (.peNewFile 5)
      (by decide!) (Or.inl rfl) (by decide!) (by decide!)).1,
    by decide!⟩

/-- C12 (code behaviour): for an image that starts with `M`, `Z`, whose four
bytes at `signOff` are not `PE\0\0` and which the open of the library, which
checks the signature, rejects, `GetCertTableInfo` aborts: it returns the
error of the library at line 104, before the printing check of lines
115-117 is reached, and no result computed at `base = signOff + 4`, where
the claim says that it continues. -/
theorem GetCertTableInfo_rejects_wrong_signature (NewFile : Bytes → Except Error FileHeader)
    (file : Bytes) (err : Error)
    (hmz : file.take 2 = [0x4D, 0x5A])
    (_hsign : slice file (uint32At file 0x3C) 4 ≠ [0x50, 0x45, 0, 0])
    (hNF : NewFile file = .error err) :
    headerBase file = uint32At file 0x3C + 4
    ∧ GetCertTableInfo NewFile file = .error err
    ∧ ∀ r : Nat × Nat × Nat, GetCertTableInfo NewFile file ≠ .ok r := by
  have h : GetCertTableInfo NewFile file = .error err := by
    simp only [GetCertTableInfo, hNF]
  refine ⟨by simp only [headerBase, hmz, if_true], h, fun r => ?_⟩
  rw [h]
  exact fun hne => Except.noConfusion hne

/-- C12 witness: the signed 64-bit image with `XE\0\0` at `signOff = 64`.  From
offset 68 on it is `signed64`, located as `(232, 328, 3)`; as it stands the
open rejects it, `GetCertTableInfo` returns that error and so does `SigRip`
with it as source. -/
theorem GetCertTableInfo_rejects_wrong_signature_witness :
    uint32At badSignature64 0x3C = 64
    ∧ slice badSignature64 64 4 = [0x58, 0x45, 0, 0]
    ∧ badSignature64.drop 68 = signed64.drop 68
    ∧ GetCertTableInfo headerNewFile signed64 = .ok (232, 328, 3)
    ∧ headerBase badSignature64 = uint32At badSignature64 0x3C + 4
    ∧ GetCertTableInfo headerNewFile badSignature64 = .error (.peNewFile 1)
    ∧ (SigRip headerNewFile noFaults exampleFS "badsignature64.exe" "unsigned32.exe"
        "out.exe").2 = some (.peNewFile 1) := by
  have h := GetCertTableInfo_rejects_wrong_signature headerNewFile badSignature64
    (.peNewFile 1) (by decide!) (by decide!) (by decide!)
  exact ⟨by decide!, by decide!, by decide!, by decide!, h.1, h.2.1, by decide!⟩

/-- C13 (amended): two runs of `SigRip` that return nil, with the same signed
source bytes and the same target bytes, the target being located by
`GetCertTableInfo` and each output path naming a file other than the target
of its run, leave the same bytes in their output files, whatever the paths
and whatever the file systems held before: the target with the eight bytes
at its entry offset replaced by the pair, followed by the certificate. -/
theorem SigRip_deterministic (NewFile : Bytes → Except Error FileHeader) (io1 io2 : Faults)
    (fs1 fs2 : FS) (signed1 target1 output1 signed2 target2 output2 : String)
    (signedFile targetFile : Bytes) (l certOffset certSize entryOffset o2 s2 : Nat)
    (hs1 : fs1.read signed1 = some signedFile) (hs2 : fs2.read signed2 = some signedFile)
    (ht1 : fs1.read target1 = some targetFile) (ht2 : fs2.read target2 = some targetFile)
    (hsrc : GetCertTableInfo NewFile signedFile = .ok (l, certOffset, certSize))
    (hoff : certOffset ≠ 0) (hsz : certSize ≠ 0)
    (htgt : GetCertTableInfo NewFile targetFile = .ok (entryOffset, o2, s2))
    (hdiff1 : fs1.resolve output1 ≠ fs1.resolve target1)
    (hdiff2 : fs2.resolve output2 ≠ fs2.resolve target2)
    (hsucc1 : (SigRip NewFile io1 fs1 signed1 target1 output1).2 = none)
    (hsucc2 : (SigRip NewFile io2 fs2 signed2 target2 output2).2 = none) :
    (SigRip NewFile io1 fs1 signed1 target1 output1).1.read output1
      = (SigRip NewFile io2 fs2 signed2 target2 output2).1.read output2
    ∧ ∃ cert : Bytes,
        cert.length = certSize
        ∧ (certOffset + certSize ≤ signedFile.length →
            cert = slice signedFile certOffset certSize)
        ∧ (SigRip NewFile io1 fs1 signed1 target1 output1).1.read output1
          = some (targetFile.take entryOffset
              ++ (putUint32 (targetFile.length % 2 ^ 32) ++ putUint32 certSize)
              ++ targetFile.drop (entryOffset + 8) ++ cert) := by
  obtain ⟨hopen1, hcopy1⟩ := SigRip_success_faults hs1 hsrc hoff hsz ht1 htgt hsucc1
  obtain ⟨hopen2, hcopy2⟩ := SigRip_success_faults hs2 hsrc hoff hsz ht2 htgt hsucc2
  have h1 := SigRip_output hs1 hsrc hoff hsz ht1 htgt hopen1 hcopy1 hdiff1
  have h2 := SigRip_output hs2 hsrc hoff hsz ht2 htgt hopen2 hcopy2 hdiff2
  have hlt : certSize % 2 ^ 32 = certSize := Nat.mod_eq_of_lt (GetCertTableInfo_size_lt hsrc)
  refine ⟨h1.trans h2.symm, readCert signedFile certOffset certSize, readCert_length _ _ _,
    fun hin => readCert_of_le hin, ?_⟩
  rw [h1]
  simp only [transplanted, readCert_length, hlt]

/-- C13 witness: the same source and target written to a fresh path and to the
path of an existing three-byte file give the same 315 bytes. -/
theorem SigRip_deterministic_witness :
    exampleFS.read "out.exe" = none ∧ exampleFS.read "old.bin" = some [1, 2, 3]
    ∧ (SigRip headerNewFile noFaults exampleFS "signed64.exe" "unsigned32.exe"
        "out.exe").1.read "out.exe"
      = (SigRip headerNewFile noFaults exampleFS "signed64.exe" "unsigned32.exe"
        "old.bin").1.read "old.bin" :=
  ⟨by decide, by decide,
    (SigRip_deterministic headerNewFile noFaults noFaults exampleFS exampleFS "signed64.exe"
      "unsigned32.exe" "out.exe" "signed64.exe" "unsigned32.exe" "old.bin" signed64
      (headers32 0 0) 232 328 3 216 0 0 rfl rfl rfl rfl (by decide!) (by decide) (by decide)
      (by decide!) (by decide) (by decide) (by decide!) (by decide!)).1⟩

/-- C13 counterexample: two pairs of runs on the same source and target bytes,
all returning nil, whose output files differ.  With a signed source, the
output path `./unsigned32.exe`, which names the target file, receives 227
bytes and the output path `out.exe` 315.  With an unsigned source both runs
write nothing: `old.bin` keeps its three bytes and `out.exe` does not
exist. -/
theorem SigRip_deterministic_counterexample :
    ("./unsigned32.exe" ≠ "unsigned32.exe"
      ∧ exampleFS.resolve "./unsigned32.exe" = exampleFS.resolve "unsigned32.exe"
      ∧ (SigRip headerNewFile noFaults exampleFS "signed64.exe" "unsigned32.exe"
          "out.exe").2 = none
      ∧ (SigRip headerNewFile noFaults exampleFS "signed64.exe" "unsigned32.exe"
          "./unsigned32.exe").2 = none
      ∧ ((SigRip headerNewFile noFaults exampleFS "signed64.exe" "unsigned32.exe"
          "out.exe").1.read "out.exe").map List.length = some 315
      ∧ ((SigRip headerNewFile noFaults exampleFS "signed64.exe" "unsigned32.exe"
          "./unsigned32.exe").1.read "./unsigned32.exe").map List.length = some 227)
    ∧ ((SigRip headerNewFile noFaults exampleFS "unsigned64.exe" "unsigned32.exe"
          "old.bin").2 = none
      ∧ (SigRip headerNewFile noFaults exampleFS "unsigned64.exe" "unsigned32.exe"
          "out.exe").2 = none
      ∧ (SigRip headerNewFile noFaults exampleFS "unsigned64.exe" "unsigned32.exe"
          "old.bin").1.read "old.bin" = some [1, 2, 3]
      ∧ (SigRip headerNewFile noFaults exampleFS "unsigned64.exe" "unsigned32.exe"
          "out.exe").1.read "out.exe" = none) := by
  decide!

/-- C14 (amended): for a signed source and two targets of equal length that are
located at the same entry offset and agree on every byte outside the eight
bytes of that entry, two runs of `SigRip` that return nil, in file systems
in which the output path names the target file either in both or in
neither, write the same output; and when the output path does not name the
target file every byte range of the target that lies outside the entry,
such as a certificate block stored after it, is found unchanged at the same
offset of the output. -/
theorem SigRip_ignores_target_entry (NewFile : Bytes → Except Error FileHeader)
    (io1 io2 : Faults) (fs1 fs2 : FS)
    (signedFilePath targetFilePath outputFilePath : String)
    (signedFile target1 target2 : Bytes)
    (l certOffset certSize entryOffset a1 b1 a2 b2 : Nat)
    (hs1 : fs1.read signedFilePath = some signedFile)
    (hs2 : fs2.read signedFilePath = some signedFile)
    (hsrc : GetCertTableInfo NewFile signedFile = .ok (l, certOffset, certSize))
    (hoff : certOffset ≠ 0) (hsz : certSize ≠ 0)
    (ht1 : fs1.read targetFilePath = some target1)
    (ht2 : fs2.read targetFilePath = some target2)
    (htgt1 : GetCertTableInfo NewFile target1 = .ok (entryOffset, a1, b1))
    (htgt2 : GetCertTableInfo NewFile target2 = .ok (entryOffset, a2, b2))
    (hlen : target1.length = target2.length)
    (htake : target1.take entryOffset = target2.take entryOffset)
    (hdrop : target1.drop (entryOffset + 8) = target2.drop (entryOffset + 8))
    (hsame : fs1.resolve outputFilePath = fs1.resolve targetFilePath
      ↔ fs2.resolve outputFilePath = fs2.resolve targetFilePath)
    (hsucc1 : (SigRip NewFile io1 fs1 signedFilePath targetFilePath outputFilePath).2 = none)
    (hsucc2 : (SigRip NewFile io2 fs2 signedFilePath targetFilePath outputFilePath).2 = none) :
    (SigRip NewFile io1 fs1 signedFilePath targetFilePath outputFilePath).1.read outputFilePath
      = (SigRip NewFile io2 fs2 signedFilePath targetFilePath outputFilePath).1.read
          outputFilePath
    ∧ (fs1.resolve outputFilePath ≠ fs1.resolve targetFilePath →
        ∀ output : Bytes,
          (SigRip NewFile io1 fs1 signedFilePath targetFilePath outputFilePath).1.read
            outputFilePath = some output →
          ∀ p n : Nat, (p + n ≤ entryOffset ∨ entryOffset + 8 ≤ p) → p + n ≤ target1.length →
            slice output p n = slice target1 p n) := by
  obtain ⟨hopen1, hcopy1⟩ := SigRip_success_faults hs1 hsrc hoff hsz ht1 htgt1 hsucc1
  obtain ⟨hopen2, hcopy2⟩ := SigRip_success_faults hs2 hsrc hoff hsz ht2 htgt2 hsucc2
  have h1 := (SigRip_run outputFilePath hs1 hsrc hoff hsz ht1 htgt1 hopen1 hcopy1).2.1
  have h2 := (SigRip_run outputFilePath hs2 hsrc hoff hsz ht2 htgt2 hopen2 hcopy2).2.1
  constructor
  · rw [h1, h2]
    by_cases he : fs1.resolve outputFilePath = fs1.resolve targetFilePath
    · simp only [he, hsame.mp he, if_true]
    · have he2 : ¬ fs2.resolve outputFilePath = fs2.resolve targetFilePath :=
        fun h => he (hsame.mpr h)
      simp only [he, he2, if_false, hlen]
      rw [writeAt_congr target1 target2 entryOffset _ hlen htake
        (by simpa [putUint32_length] using hdrop)]
  · intro hdiff output hout p n hrange hin
    rcases Nat.eq_zero_or_pos n with rfl | hn
    · rw [slice_zero, slice_zero]
    · have hb : entryOffset + 8 ≤ target1.length := by
        rcases GetCertTableInfo_ok_cases htgt1 with ⟨_, _, hl, rfl, _, _⟩ |
          ⟨_, _, hl, rfl, _, _⟩ | ⟨_, rfl, _, _⟩ <;> omega
      rw [SigRip_output hs1 hsrc hoff hsz ht1 htgt1 hopen1 hcopy1 hdiff] at hout
      have hout' := Option.some.inj hout
      subst hout'
      rcases hrange with hlow | hhigh
      · exact slice_transplanted_low _ _ _ _ _ (by omega) hlow
      · exact slice_transplanted_high _ _ _ _ _ hb hhigh hin

/-- C14 witness: the signed 32-bit image and its twin with a zeroed entry, as
targets, give the same output; the block `11 22 33` of the target is found
at offset 312 of the output, before the appended certificate. -/
theorem SigRip_ignores_target_entry_witness :
    (SigRip headerNewFile noFaults exampleFS "signed64.exe" "signed32.exe"
        "out.exe").1.read "out.exe"
      = (SigRip headerNewFile noFaults twinFS "signed64.exe" "signed32.exe"
        "out.exe").1.read "out.exe"
    ∧ slice (transplanted signed32 216 [0xAA, 0xBB, 0xCC]) 312 3 = [0x11, 0x22, 0x33] := by
  have h := SigRip_ignores_target_entry headerNewFile noFaults noFaults exampleFS twinFS
    "signed64.exe" "signed32.exe" "out.exe" signed64 signed32 twin32 232 328 3 216 312 3 0 0
    rfl (by decide!) (by decide!) (by decide) (by decide) rfl (by decide!) (by decide!)
    (by decide!) (by decide!) (by decide!) (by decide!) (by decide) (by decide!) (by decide!)
  refine ⟨h.1, ?_⟩
  rw [h.2 (by decide) (transplanted signed32 216 [0xAA, 0xBB, 0xCC]) (by decide!) 312 3
    (Or.inr (by decide)) (by decide!)]
  decide!

/-- C14 counterexample: two runs that return nil in which bytes of the target's
certificate block do not reach the output.  With the output path
`./signed32.exe`, which names the target file `signed32.exe`, the output
has 227 bytes and nothing at offset 312, where the target stores
`11 22 33`.  With the target `self32.exe`, whose entry `(216, 8)` names the
eight bytes of the entry itself as the block, those bytes are replaced by
the pair `(312, 3)`. -/
theorem SigRip_ignores_target_entry_counterexample :
    (GetCertTableInfo headerNewFile signed32 = .ok (216, 312, 3)
      ∧ slice signed32 312 3 = [0x11, 0x22, 0x33]
      ∧ "./signed32.exe" ≠ "signed32.exe"
      ∧ exampleFS.resolve "./signed32.exe" = exampleFS.resolve "signed32.exe"
      ∧ (SigRip headerNewFile noFaults exampleFS "signed64.exe" "signed32.exe"
          "./signed32.exe").2 = none
      ∧ (SigRip headerNewFile noFaults exampleFS "signed64.exe" "signed32.exe"
          "./signed32.exe").1.read "./signed32.exe"
        = some (List.replicate 216 0 ++ (putUint32 0 ++ putUint32 3) ++ [0xAA, 0xBB, 0xCC]))
    ∧ (GetCertTableInfo headerNewFile (headers32 216 8) = .ok (216, 216, 8)
      ∧ slice (headers32 216 8) 216 8 = putUint32 216 ++ putUint32 8
      ∧ selfFS.resolve "out.exe" ≠ selfFS.resolve "self32.exe"
      ∧ (SigRip headerNewFile noFaults selfFS "signed64.exe" "self32.exe" "out.exe").2 = none
      ∧ ((SigRip headerNewFile noFaults selfFS "signed64.exe" "self32.exe"
          "out.exe").1.read "out.exe").map
          (fun output => slice output 216 8) = some (putUint32 312 ++ putUint32 3)) := by
  decide!

/-- C15: for an image that passes the library's open and whose File Header
gives a `SizeOfOptionalHeader` other than 224 and 240, `GetCertTableInfo`
returns `(0, 0, 0)` without error, and `SigRip` with that image as source
takes the branch of line 50: it returns at line 52 with every file as it
was. -/
theorem GetCertTableInfo_zero_not_signed (NewFile : Bytes → Except Error FileHeader)
    (file : Bytes) (peFile : FileHeader) (size : Nat)
    (hNF : NewFile file = .ok peFile)
    (hsize : imageSizeOfOptionalHeader file = some size)
    (h32 : size ≠ 224) (h64 : size ≠ 240) :
    GetCertTableInfo NewFile file = .ok (0, 0, 0)
    ∧ ∀ (io : Faults) (fs : FS) (signedFilePath targetFilePath outputFilePath : String),
        fs.read signedFilePath = some file →
        SigRip NewFile io fs signedFilePath targetFilePath outputFilePath = (fs, none) := by
  have h := (GetCertTableInfo_zero hNF hsize h32 h64).1
  exact ⟨h, fun io fs _ t o hs => SigRip_not_signed io t o hs h (Or.inl rfl)⟩

/-- C15 witness: the 96-byte object image, `SizeOfOptionalHeader = 0`, as
source. -/
theorem GetCertTableInfo_zero_not_signed_witness :
    headerNewFile objectImage = .ok (decodeFileHeader (slice objectImage 0 20))
    ∧ imageSizeOfOptionalHeader objectImage = some 0
    ∧ GetCertTableInfo headerNewFile objectImage = .ok (0, 0, 0)
    ∧ SigRip headerNewFile noFaults exampleFS "object.o" "B.exe" "out.exe"
      = (exampleFS, none) := by
  have h := GetCertTableInfo_zero_not_signed headerNewFile objectImage
    (decodeFileHeader (slice objectImage 0 20)) 0 (by decide!) (by decide!) (by decide)
    (by decide)
  exact ⟨by decide!, by decide!, h.1, h.2 noFaults exampleFS "object.o" "B.exe" "out.exe" rfl⟩

/-- C18 (amended): for a signed source and a target that passes the open of
the library and whose File Header gives a `SizeOfOptionalHeader` other than
224 and 240, with an output path that does not name the target file, a run of
`SigRip` in which `os.OpenFile` and `io.Copy` do not fail returns nil and the
output is the little-endian pair `(fileSize mod 2^32, certSize)` in place of
the first eight bytes of the target, then the target from offset 8 on, then
the `certSize` bytes of the certificate (the bytes of the source at
`certOffset` when they exist). -/
theorem SigRip_unrecognised_target (NewFile : Bytes → Except Error FileHeader) (io : Faults)
    (fs : FS) (signedFilePath targetFilePath outputFilePath : String)
    (signedFile targetFile : Bytes) (l certOffset certSize size : Nat) (peFile : FileHeader)
    (hs : fs.read signedFilePath = some signedFile)
    (hsrc : GetCertTableInfo NewFile signedFile = .ok (l, certOffset, certSize))
    (hoff : certOffset ≠ 0) (hsz : certSize ≠ 0)
    (ht : fs.read targetFilePath = some targetFile)
    (hNF : NewFile targetFile = .ok peFile)
    (hsize : imageSizeOfOptionalHeader targetFile = some size)
    (h32 : size ≠ 224) (h64 : size ≠ 240)
    (hdiff : fs.resolve outputFilePath ≠ fs.resolve targetFilePath)
    (hopen : io.openOutput = none) (hcopy : io.copy = none) :
    (SigRip NewFile io fs signedFilePath targetFilePath outputFilePath).2 = none
    ∧ ∃ cert : Bytes,
        cert.length = certSize
        ∧ (certOffset + certSize ≤ signedFile.length →
            cert = slice signedFile certOffset certSize)
        ∧ (SigRip NewFile io fs signedFilePath targetFilePath outputFilePath).1.read
            outputFilePath
          = some ((putUint32 (targetFile.length % 2 ^ 32) ++ putUint32 certSize)
              ++ targetFile.drop 8 ++ cert) := by
  obtain ⟨htgt, h20⟩ := GetCertTableInfo_zero hNF hsize h32 h64
  have hrun := SigRip_run outputFilePath hs hsrc hoff hsz ht htgt hopen hcopy
  have h := (SigRip_patched hs hsrc hoff hsz ht htgt hopen hcopy (by omega) hdiff).1
  refine ⟨hrun.1, readCert signedFile certOffset certSize, readCert_length _ _ _,
    fun hin => readCert_of_le hin, ?_⟩
  rw [h]
  simp only [List.take_zero, List.nil_append, Nat.zero_add]

/-- C18 witness: the 96-byte object image as target; the output starts with the
pair `(96, 3)`, continues with bytes 8 to 95 of the target and ends with the
certificate `AA BB CC`. -/
theorem SigRip_unrecognised_target_witness :
    (SigRip headerNewFile noFaults exampleFS "signed64.exe" "object.o" "out.exe").2 = none
    ∧ (SigRip headerNewFile noFaults exampleFS "signed64.exe" "object.o"
        "out.exe").1.read "out.exe"
      = some ((putUint32 96 ++ putUint32 3) ++ objectImage.drop 8 ++ [0xAA, 0xBB, 0xCC]) := by
  have h := SigRip_unrecognised_target headerNewFile noFaults exampleFS "signed64.exe"
    "object.o" "out.exe" signed64 objectImage 232 328 3 0
    (decodeFileHeader (slice objectImage 0 20)) rfl (by decide!) (by decide) (by decide) rfl
    (by decide!) (by decide!) (by decide) (by decide) (by decide) rfl rfl
  exact ⟨h.1, by decide!⟩

/-- C18 counterexample: with the output path `./object.o`, which names the
96-byte target `object.o`, the target is emptied before the copy: the run
returns nil, the output is the pair `(0, 3)` and the certificate, eleven
bytes, and bytes 8 to 95 of the target are not in it. -/
theorem SigRip_unrecognised_target_counterexample :
    objectImage.length = 96
    ∧ GetCertTableInfo headerNewFile objectImage = .ok (0, 0, 0)
    ∧ "./object.o" ≠ "object.o"
    ∧ exampleFS.resolve "./object.o" = exampleFS.resolve "object.o"
    ∧ (SigRip headerNewFile noFaults exampleFS "signed64.exe" "object.o" "./object.o").2 = none
    ∧ (SigRip headerNewFile noFaults exampleFS "signed64.exe" "object.o"
        "./object.o").1.read "./object.o"
      = some ((putUint32 0 ++ putUint32 3) ++ [0xAA, 0xBB, 0xCC]) := by
  decide!

end Sigthief
